import Mathlib

/-! ESP32-S3 Mini I/O Controller: profile store and button debouncer.

A shallow embedding of `Profiles.h` (`MotorProfile`, `ProfileStore`) and
`Buttons.h` (`Buttons`) together with the constants of `Config.h` they use.

Modelling conventions.

* `uint8_t` / `uint32_t` / `unsigned long` values are natural numbers; every
  conversion to such a type is an explicit `% 256` or `% 4294967296`.
  `int` values are integers.
* The Arduino `Preferences` object (an NVS namespace) is a finite map from key
  strings to typed values, represented by its lookup function.  A typed getter
  returns the caller's default when the key is absent or holds a value of
  another type; a putter replaces whatever the key held.
* `char name[20]` is represented by the characters the array holds before its
  first NUL: at most 20, and exactly 20 when the array holds no NUL at all.
  `strncpy (.., .., 20)` fills the array with at most the first 20 characters
  of its source and adds a NUL only when the source has fewer than 20.  Reading
  the array as a C string, as `putString (key, m.name)` does, is a separate
  function, `MotorProfile.nameText`: with no NUL in the array the read runs on
  into the members that follow it in the struct.
* `digitalRead` and `millis` are inputs of `poll`.
-/

namespace MiniController

/-! ## Config.h -/

/-- Maximum number of stored motor control profiles. -/
abbrev MAX_PROFILES : Nat := 8

/-- Duration (ms) to consider a SELECT long press. -/
abbrev LONG_PRESS_MS : Nat := 600

/-! ## The Preferences (NVS) boundary -/

/-- A value stored under one key of the namespace, tagged with the type it was
written with. -/
inductive Val where
  | str (s : String)
  | bool (b : Bool)
  | u8 (n : Nat)
  | u32 (n : Nat)
deriving DecidableEq, Repr

/-- The contents of the opened namespace: what each key holds, if anything. -/
abbrev Prefs := String → Option Val

namespace Prefs

/-- The namespace with no key at all. -/
def empty : Prefs := fun _ => none

/-- Store `v` under `k`, replacing what was there. -/
def put (p : Prefs) (k : String) (v : Val) : Prefs :=
  fun q => if q = k then some v else p q

/-- The member `Preferences::remove`: delete key `k`. -/
def remove (p : Prefs) (k : String) : Prefs :=
  fun q => if q = k then none else p q

/-- The member `Preferences::getString (key, defaultValue)`. -/
def getString (p : Prefs) (k : String) (d : String) : String :=
  match p k with
  | some (Val.str s) => s
  | _ => d

/-- The member `Preferences::getBool (key, defaultValue)`. -/
def getBool (p : Prefs) (k : String) (d : Bool) : Bool :=
  match p k with
  | some (Val.bool b) => b
  | _ => d

/-- The member `Preferences::getUChar (key, defaultValue)`. -/
def getUChar (p : Prefs) (k : String) (d : Nat) : Nat :=
  match p k with
  | some (Val.u8 n) => n % 256
  | _ => d % 256

/-- The member `Preferences::getUInt (key, defaultValue)`. -/
def getUInt (p : Prefs) (k : String) (d : Nat) : Nat :=
  match p k with
  | some (Val.u32 n) => n % 4294967296
  | _ => d % 4294967296

/-- The member `Preferences::putString (key, value)`. -/
def putString (p : Prefs) (k : String) (s : String) : Prefs := p.put k (Val.str s)

/-- The member `Preferences::putBool (key, value)`. -/
def putBool (p : Prefs) (k : String) (b : Bool) : Prefs := p.put k (Val.bool b)

/-- The member `Preferences::putUChar (key, value)`; the argument is a `uint8_t`. -/
def putUChar (p : Prefs) (k : String) (n : Nat) : Prefs := p.put k (Val.u8 (n % 256))

/-- The member `Preferences::putUInt (key, value)`; the argument is a `uint32_t`. -/
def putUInt (p : Prefs) (k : String) (n : Nat) : Prefs := p.put k (Val.u32 (n % 4294967296))

end Prefs

/-! ## Profiles.h -/

/-- The C library `strncpy (dst, src, n)` on an array `dst` of `n` characters: the
characters of `dst` before its first NUL afterwards, which are the first `n`
characters of `src` at most.  A result of fewer than `n` characters is followed by a
NUL in `dst`; a result of `n` characters fills `dst` and leaves no room for one. -/
def strncpy (src : String) (n : Nat) : String := String.mk (src.data.take n)

/-- The struct `MotorProfile`.  `name` is the content of `char name[20]` before its
first NUL; the other members follow it in this order, one byte each up to `ppr`. -/
structure MotorProfile where
  name : String
  hasBrake : Bool
  hasFG : Bool
  hasLD : Bool
  ldActiveLow : Bool
  hasStop : Bool
  stopActiveHigh : Bool
  hasEnable : Bool
  enableActiveHigh : Bool
  ppr : Nat
  maxClockHz : Nat
deriving DecidableEq, Repr

/-- The member `MotorProfile::setDefaults`. -/
def MotorProfile.setDefaults (_m : MotorProfile) : MotorProfile :=
  { name := strncpy "Unnamed" 20
    hasBrake := false
    hasFG := false
    hasLD := false
    ldActiveLow := true
    hasStop := false
    stopActiveHigh := true
    hasEnable := false
    enableActiveHigh := true
    ppr := 6
    maxClockHz := 20000 }

/-- The characters a C-string read finds behind `name[20]` when the array holds no
NUL: one byte of value 1 for each of the eight flags up to the first false one (a false
flag is a zero byte and ends the read) and, when all eight are true, the byte of `ppr`
unless it is 0.  The padding byte that follows `ppr` is taken to be 0, as in a
zero-initialised object; what `load` reads back depends on nothing behind the array
(`strncpy_nameText`). -/
def MotorProfile.overrun (m : MotorProfile) : List Char :=
  let flags := [m.hasBrake, m.hasFG, m.hasLD, m.ldActiveLow, m.hasStop, m.stopActiveHigh,
    m.hasEnable, m.enableActiveHigh]
  let ones := (flags.takeWhile id).map fun _ => Char.ofNat 1
  if flags.all id = true ∧ m.ppr % 256 ≠ 0 then ones ++ [Char.ofNat (m.ppr % 256)] else ones

/-- The text a C-string read of `m.name` yields, as in `prefs.putString (key, m.name)`:
the content of the array when it ends in a NUL (fewer than 20 characters), and otherwise
the content followed by the bytes of the next members up to the first zero byte. -/
def MotorProfile.nameText (m : MotorProfile) : String :=
  if m.name.length < 20 then m.name else String.mk (m.name.data ++ m.overrun)

/-- What `snprintf (key, sizeof (key), "m%d_<sfx>", idx)` leaves in `char key[16]`:
the formatted text cut to 15 characters. -/
def key (idx : Int) (sfx : String) : String :=
  String.mk (("m" ++ toString idx ++ "_" ++ sfx).data.take 15)

/-- The class `ProfileStore`: the opened namespace and the two cached bytes. -/
structure ProfileStore where
  prefs : Prefs
  count : Nat
  activeIndex : Nat

namespace ProfileStore

/-- The member `begin`, on a namespace with contents `nvs`. -/
def begin (nvs : Prefs) : ProfileStore :=
  let count := nvs.getUChar "count" 0
  let activeIndex := nvs.getUChar "active" 0
  { prefs := nvs
    count := if count > MAX_PROFILES then 0 else count
    activeIndex := activeIndex }

/-- The member `getCount`. -/
def getCount (s : ProfileStore) : Int := s.count

/-- The member `getActiveIndex`. -/
def getActiveIndex (s : ProfileStore) : Int := s.activeIndex

/-- The member `load`: the returned flag and the contents of the output
parameter `m` afterwards. -/
def load (s : ProfileStore) (idx : Int) (m : MotorProfile) : Bool × MotorProfile :=
  if idx < 0 ∨ idx ≥ s.count then (false, m)
  else
    (true,
      { name := strncpy (s.prefs.getString (key idx "name") "Unnamed") 20
        hasBrake := s.prefs.getBool (key idx "br") false
        hasFG := s.prefs.getBool (key idx "fg") false
        hasLD := s.prefs.getBool (key idx "ld") false
        ldActiveLow := s.prefs.getBool (key idx "lda") true
        hasStop := s.prefs.getBool (key idx "st") false
        stopActiveHigh := s.prefs.getBool (key idx "sta") true
        hasEnable := s.prefs.getBool (key idx "en") false
        enableActiveHigh := s.prefs.getBool (key idx "ena") true
        ppr := s.prefs.getUChar (key idx "ppr") 6
        maxClockHz := s.prefs.getUInt (key idx "max") 20000 })

/-- The eleven writes of `save`, in source order. -/
def writeFields (p : Prefs) (idx : Int) (m : MotorProfile) : Prefs :=
  let p := p.putString (key idx "name") m.nameText
  let p := p.putBool (key idx "br") m.hasBrake
  let p := p.putBool (key idx "fg") m.hasFG
  let p := p.putBool (key idx "ld") m.hasLD
  let p := p.putBool (key idx "lda") m.ldActiveLow
  let p := p.putBool (key idx "st") m.hasStop
  let p := p.putBool (key idx "sta") m.stopActiveHigh
  let p := p.putBool (key idx "en") m.hasEnable
  let p := p.putBool (key idx "ena") m.enableActiveHigh
  let p := p.putUChar (key idx "ppr") m.ppr
  p.putUInt (key idx "max") m.maxClockHz

/-- The member `save`: the returned flag and the store afterwards. -/
def save (s : ProfileStore) (idx : Int) (m : MotorProfile) : Bool × ProfileStore :=
  if idx < 0 ∨ idx ≥ MAX_PROFILES then (false, s)
  else
    let p := writeFields s.prefs idx m
    if idx ≥ s.count then
      let count := ((idx + 1) % 256).toNat
      (true, { prefs := p.putUChar "count" count, count := count, activeIndex := s.activeIndex })
    else
      (true, { prefs := p, count := s.count, activeIndex := s.activeIndex })

/-- The member `append`. -/
def append (s : ProfileStore) (m : MotorProfile) : Bool × ProfileStore :=
  if s.count ≥ MAX_PROFILES then (false, s)
  else s.save s.count m

/-- The shifting loop of `remove`,
`for (int i = idx; i < count - 1; ++i) { load (i + 1, tmp); save (i, tmp); }`,
run for at most `fuel` iterations from loop variable `i`; the local `tmp` is
threaded through. -/
def removeLoop : Nat → ProfileStore → Int → MotorProfile → ProfileStore × MotorProfile
  | 0, s, _, tmp => (s, tmp)
  | fuel + 1, s, i, tmp =>
    if i < (s.count : Int) - 1 then
      let tmp1 := (s.load (i + 1) tmp).2
      let s1 := (s.save i tmp1).2
      removeLoop fuel s1 (i + 1) tmp1
    else (s, tmp)

/-- The suffix table `sfx` of `remove`. -/
def sfx : List String :=
  ["name", "br", "fg", "ld", "lda", "st", "sta", "en", "ena", "ppr", "max"]

/-- The tail-clearing loop of `remove`: delete `"m<last>_<s>"` for each `s` of `sfx`. -/
def clearTail (p : Prefs) (last : Int) : Prefs :=
  sfx.foldl (fun q s => q.remove (key last s)) p

/-- The member `remove`.  `tmp` is the indeterminate initial content of the
local `MotorProfile tmp`; the loop gets `count` units of fuel, more than the
`count - 1 - idx` iterations it makes. -/
def remove (s : ProfileStore) (idx : Int) (tmp : MotorProfile) : ProfileStore :=
  if idx < 0 ∨ idx ≥ s.count then s
  else
    let s1 := (removeLoop s.count s idx tmp).1
    let last : Int := (s1.count : Int) - 1
    let p := clearTail s1.prefs last
    let count := (s1.count + 255) % 256
    let p := p.putUChar "count" count
    if s1.activeIndex ≥ count then
      let activeIndex := if count > 0 then 0 else 255
      { prefs := p.putUChar "active" activeIndex, count := count, activeIndex := activeIndex }
    else
      { prefs := p, count := count, activeIndex := s1.activeIndex }

/-- The member `loadActive`. -/
def loadActive (s : ProfileStore) (m : MotorProfile) : Bool × MotorProfile :=
  if s.count = 0 ∨ s.activeIndex ≥ s.count then (false, m)
  else s.load s.activeIndex m

/-- The member `setActive`. -/
def setActive (s : ProfileStore) (idx : Int) : ProfileStore :=
  if idx ≥ 0 ∧ idx < s.count then
    let activeIndex := (idx % 256).toNat
    { prefs := s.prefs.putUChar "active" activeIndex, count := s.count, activeIndex := activeIndex }
  else s

/-- The member `nameOf`. -/
def nameOf (s : ProfileStore) (idx : Int) : String :=
  if idx < 0 ∨ idx ≥ s.count then "-"
  else s.prefs.getString (key idx "name") "Unnamed"

end ProfileStore

/-! ## Auxiliary definitions for the store -/

/-- The profile `load` assembles from the keys of slot `idx`. -/
def readProfile (p : Prefs) (idx : Int) : MotorProfile :=
  { name := strncpy (p.getString (key idx "name") "Unnamed") 20
    hasBrake := p.getBool (key idx "br") false
    hasFG := p.getBool (key idx "fg") false
    hasLD := p.getBool (key idx "ld") false
    ldActiveLow := p.getBool (key idx "lda") true
    hasStop := p.getBool (key idx "st") false
    stopActiveHigh := p.getBool (key idx "sta") true
    hasEnable := p.getBool (key idx "en") false
    enableActiveHigh := p.getBool (key idx "ena") true
    ppr := p.getUChar (key idx "ppr") 6
    maxClockHz := p.getUInt (key idx "max") 20000 }

/-- What reading back a written profile gives: in the name array the first 20
characters of the name at most, the numbers reduced to their widths. -/
def MotorProfile.stored (m : MotorProfile) : MotorProfile :=
  { m with
    name := strncpy m.name 20
    ppr := m.ppr % 256
    maxClockHz := m.maxClockHz % 4294967296 }

/-- A zero-filled `MotorProfile`, used as a concrete value of the type. -/
def zeroed : MotorProfile :=
  { name := "", hasBrake := false, hasFG := false, hasLD := false, ldActiveLow := false,
    hasStop := false, stopActiveHigh := false, hasEnable := false, enableActiveHigh := false,
    ppr := 0, maxClockHz := 0 }

/-- A call of one of the four mutating members of `ProfileStore`. -/
inductive Op where
  | save (idx : Int) (m : MotorProfile)
  | append (m : MotorProfile)
  | remove (idx : Int) (tmp : MotorProfile)
  | setActive (idx : Int)

/-- The store after one call. -/
def Op.apply (s : ProfileStore) : Op → ProfileStore
  | Op.save idx m => (s.save idx m).2
  | Op.append m => (s.append m).2
  | Op.remove idx tmp => s.remove idx tmp
  | Op.setActive idx => s.setActive idx

/-- The store after a sequence of calls, first call first. -/
def runOps (s : ProfileStore) (ops : List Op) : ProfileStore :=
  ops.foldl Op.apply s

/-- The flags returned by appending the profiles of `ms` one after the other, and the
store at the end. -/
def appendAll : ProfileStore → List MotorProfile → List Bool × ProfileStore
  | s, [] => ([], s)
  | s, m :: ms =>
    let r := s.append m
    let rest := appendAll r.2 ms
    (r.1 :: rest.1, rest.2)

/-- The sentinel-or-valid condition on the active index. -/
def ActiveOk (s : ProfileStore) : Prop :=
  s.activeIndex = 255 ∨ s.activeIndex < s.count

/-! ## Buttons.h -/

/-- The Arduino level `HIGH`. -/
abbrev HIGH : Int := 1

/-- The Arduino level `LOW`. -/
abbrev LOW : Int := 0

/-- Subtraction of two `unsigned long` values (32 bits on the ESP32-S3). -/
def subUL (a b : Nat) : Nat :=
  (a % 4294967296 + 4294967296 - b % 4294967296) % 4294967296

/-- The four variables `processButton` receives by reference. -/
structure Chan where
  last : Int
  stable : Int
  debounceTime : Nat
  edge : Bool
deriving DecidableEq, Repr

/-- The member `Buttons::processButton`; `reading` is what `digitalRead (pin)` returns. -/
def processButton (reading : Int) (c : Chan) (now : Nat) : Chan :=
  let c1 := if reading ≠ c.last then { c with debounceTime := now } else c
  let c2 :=
    if subUL now c1.debounceTime > 50 then
      if reading ≠ c1.stable then
        let c3 := { c1 with stable := reading }
        if c3.stable = LOW then { c3 with edge := true } else c3
      else c1
    else c1
  { c2 with last := reading }

/-- The class `Buttons`. -/
structure Buttons where
  lastUp : Int
  lastDown : Int
  lastSel : Int
  stableUp : Int
  stableDown : Int
  stableSel : Int
  lastDebUp : Nat
  lastDebDown : Nat
  lastDebSel : Nat
  upEdge : Bool
  downEdge : Bool
  selEdge : Bool
  longSel : Bool
  selPressStart : Nat
  longSelTriggered : Bool
deriving DecidableEq, Repr

/-- One value of `millis ()` and the three values `digitalRead` returns during one `poll`. -/
structure Sample where
  now : Nat
  up : Int
  down : Int
  sel : Int
deriving DecidableEq, Repr

namespace Buttons

/-- The object as its member initialisers leave it. -/
def init : Buttons :=
  { lastUp := HIGH, lastDown := HIGH, lastSel := HIGH
    stableUp := HIGH, stableDown := HIGH, stableSel := HIGH
    lastDebUp := 0, lastDebDown := 0, lastDebSel := 0
    upEdge := false, downEdge := false, selEdge := false
    longSel := false, selPressStart := 0, longSelTriggered := false }

/-- The member `begin`; the arguments are the three initial `digitalRead` values. -/
def begin (b : Buttons) (rUp rDown rSel : Int) : Buttons :=
  { b with
    lastUp := rUp, lastDown := rDown, lastSel := rSel
    stableUp := rUp, stableDown := rDown, stableSel := rSel }

/-- The member `poll`, with `millis ()` and the pin levels taken from `x`. -/
def poll (b : Buttons) (x : Sample) : Buttons :=
  let now := x.now % 4294967296
  let up := processButton x.up ⟨b.lastUp, b.stableUp, b.lastDebUp, false⟩ now
  let down := processButton x.down ⟨b.lastDown, b.stableDown, b.lastDebDown, false⟩ now
  let sel := processButton x.sel ⟨b.lastSel, b.stableSel, b.lastDebSel, false⟩ now
  let b1 : Buttons :=
    { b with
      lastUp := up.last, stableUp := up.stable, lastDebUp := up.debounceTime, upEdge := up.edge
      lastDown := down.last, stableDown := down.stable, lastDebDown := down.debounceTime
      downEdge := down.edge
      lastSel := sel.last, stableSel := sel.stable, lastDebSel := sel.debounceTime
      selEdge := sel.edge }
  if b1.stableSel = LOW then
    if b1.selPressStart = 0 then { b1 with selPressStart := now }
    else if subUL now b1.selPressStart > LONG_PRESS_MS then
      if ¬ b1.longSelTriggered then { b1 with longSel := true, longSelTriggered := true }
      else b1
    else b1
  else { b1 with selPressStart := 0, longSelTriggered := false, longSel := false }

/-- The member `upPressed`. -/
def upPressed (b : Buttons) : Bool × Buttons := (b.upEdge, { b with upEdge := false })

/-- The member `downPressed`. -/
def downPressed (b : Buttons) : Bool × Buttons := (b.downEdge, { b with downEdge := false })

/-- The member `selPressed`. -/
def selPressed (b : Buttons) : Bool × Buttons := (b.selEdge, { b with selEdge := false })

/-- The member `selLong`. -/
def selLong (b : Buttons) : Bool × Buttons := (b.longSel, { b with longSel := false })

/-- The member `rawUpLow`. -/
def rawUpLow (b : Buttons) : Bool := decide (b.stableUp = LOW)

/-- The member `rawDownLow`. -/
def rawDownLow (b : Buttons) : Bool := decide (b.stableDown = LOW)

/-- The member `rawSelLow`. -/
def rawSelLow (b : Buttons) : Bool := decide (b.stableSel = LOW)

end Buttons

/-! ## Auxiliary definitions for the buttons -/

/-- The three buttons. -/
inductive Channel where
  | up
  | down
  | sel
deriving DecidableEq, Repr

/-- The level sampled for a channel. -/
def Sample.reading (x : Sample) : Channel → Int
  | Channel.up => x.up
  | Channel.down => x.down
  | Channel.sel => x.sel

/-- The four variables of a channel. -/
def Buttons.chan (b : Buttons) : Channel → Chan
  | Channel.up => ⟨b.lastUp, b.stableUp, b.lastDebUp, b.upEdge⟩
  | Channel.down => ⟨b.lastDown, b.stableDown, b.lastDebDown, b.downEdge⟩
  | Channel.sel => ⟨b.lastSel, b.stableSel, b.lastDebSel, b.selEdge⟩

/-- The consume query of a channel: `upPressed`, `downPressed` or `selPressed`. -/
def Buttons.consume (b : Buttons) : Channel → Bool × Buttons
  | Channel.up => b.upPressed
  | Channel.down => b.downPressed
  | Channel.sel => b.selPressed

/-- Poll once per sample and call the channel's consume query after each poll.  For each
poll: the channel's debounced level and press-edge flag as the poll leaves them, and what
the query returns. -/
def pollConsume (ch : Channel) : Buttons → List Sample → List (Int × Bool × Bool)
  | _, [] => []
  | b, x :: xs =>
    let b1 := b.poll x
    let r := b1.consume ch
    ((b1.chan ch).stable, (b1.chan ch).edge, r.1) :: pollConsume ch r.2 xs

/-- The state after the polls and queries of `pollConsume`. -/
def pollConsumeEnd (ch : Channel) : Buttons → List Sample → Buttons
  | b, [] => b
  | b, x :: xs => pollConsumeEnd ch ((b.poll x).consume ch).2 xs

/-- Poll once per sample and call `selLong` after each poll.  For each poll: SELECT's
debounced level as the poll leaves it, and what `selLong` returns. -/
def pollSelLong : Buttons → List Sample → List (Int × Bool)
  | _, [] => []
  | b, x :: xs =>
    let b1 := b.poll x
    let r := b1.selLong
    (b1.stableSel, r.1) :: pollSelLong r.2 xs

/-! ## Scenarios and concrete inputs -/

/-- A store of three slots in which only the name of slot 2 has been written. -/
def threeSlots : ProfileStore :=
  { prefs := Prefs.empty.putString "m2_name" "C", count := 3, activeIndex := 0 }

/-- The scenario of three appends, `setActive (1)` and `remove (0)` on an empty opened
store.  The three profiles are `a`, `b`, `c` renamed "A", "B", "C". -/
def scenarioABC (a b c tmp : MotorProfile) : ProfileStore :=
  let s0 := ProfileStore.begin Prefs.empty
  let s1 := (s0.append { a with name := "A" }).2
  let s2 := (s1.append { b with name := "B" }).2
  let s3 := (s2.append { c with name := "C" }).2
  let s4 := s3.setActive 1
  s4.remove 0 tmp

/-- A profile with default settings and the given name. -/
def MotorProfile.named (n : String) : MotorProfile :=
  { zeroed.setDefaults with name := n }

/-- A namespace in which `"count"` holds 2 and `"active"` holds 5. -/
def staleActive : Prefs :=
  (Prefs.empty.putUChar "count" 2).putUChar "active" 5

/-- A namespace in which `"count"` holds 2 and `"active"` holds the sentinel 255. -/
def noneActive : Prefs :=
  (Prefs.empty.putUChar "count" 2).putUChar "active" 255

/-- A store holding eight slots and nothing written in them. -/
def fullStore : ProfileStore :=
  { prefs := Prefs.empty.putUChar "count" 8, count := 8, activeIndex := 0 }

/-- Eight profiles, named "P0" to "P7". -/
def eightProfiles : List MotorProfile :=
  ["P0", "P1", "P2", "P3", "P4", "P5", "P6", "P7"].map MotorProfile.named

/-- The states after each poll of a sequence, no query being called in between. -/
def pollAll : Buttons → List Sample → List Buttons
  | _, [] => []
  | b, x :: xs => b.poll x :: pollAll (b.poll x) xs

/-- The state after the last poll of a sequence, no query being called in between. -/
def pollEnd (b : Buttons) (xs : List Sample) : Buttons :=
  xs.foldl Buttons.poll b

/-- A channel's debounced level and press-edge flag after each poll of a sequence. -/
def chanTrace (ch : Channel) (b : Buttons) (xs : List Sample) : List (Int × Bool) :=
  (pollAll b xs).map fun st => ((st.chan ch).stable, (st.chan ch).edge)

/-- A sample in which only UP is pressed. -/
def upLowAt (t : Nat) : Sample := { now := t, up := LOW, down := HIGH, sel := HIGH }

/-- A sample in which only SELECT is pressed. -/
def selLowAt (t : Nat) : Sample := { now := t, up := HIGH, down := HIGH, sel := LOW }

/-- A sample in which no button is pressed. -/
def allHighAt (t : Nat) : Sample := { now := t, up := HIGH, down := HIGH, sel := HIGH }

/-- The state after the polls and `selLong` queries of `pollSelLong`. -/
def pollSelLongEnd : Buttons → List Sample → Buttons
  | b, [] => b
  | b, x :: xs => pollSelLongEnd (b.poll x).selLong.2 xs

/-- A `Buttons` object right after `begin ()` with SELECT held down at power-up. -/
def selHeldAtBoot : Buttons := Buttons.init.begin HIGH HIGH LOW

/-- A store of one slot whose stored name has 26 characters. -/
def longNameStore : ProfileStore :=
  { prefs := Prefs.empty.putString "m0_name" "ABCDEFGHIJKLMNOPQRSTUVWXYZ"
    count := 1, activeIndex := 0 }

/-- A store of two slots in which slot 1 has only its name, `"m1_st"` and `"m1_ppr"`
written. -/
def sparseStore : ProfileStore :=
  { prefs := ((Prefs.empty.putString "m1_name" "Fan").putBool "m1_st" true).putUChar "m1_ppr" 12
    count := 2, activeIndex := 0 }

/-- A profile with default settings named "Pump". -/
def pump : MotorProfile := MotorProfile.named "Pump"

/-- A store holding a single profile, named "Solo", which is the active one. -/
def soloStore : ProfileStore :=
  ((ProfileStore.begin Prefs.empty).append (MotorProfile.named "Solo")).2

/-- A namespace whose stored count, 200, is corrupt, with `"active"` holding 3 and one
record key present. -/
def corruptCount : Prefs :=
  ((Prefs.empty.putUChar "count" 200).putUChar "active" 3).putString "m0_name" "Old"

/-- A call of one of the six members of `ProfileStore` that take part in its life after
`begin ()`; `load` and `loadActive` carry the caller's output profile. -/
inductive Call where
  | load (idx : Int) (m : MotorProfile)
  | save (idx : Int) (m : MotorProfile)
  | append (m : MotorProfile)
  | remove (idx : Int) (tmp : MotorProfile)
  | setActive (idx : Int)
  | loadActive (m : MotorProfile)

/-- The store after one call; `load` and `loadActive` only read it. -/
def Call.apply (s : ProfileStore) : Call → ProfileStore
  | Call.load _ _ => s
  | Call.save idx m => (s.save idx m).2
  | Call.append m => (s.append m).2
  | Call.remove idx tmp => s.remove idx tmp
  | Call.setActive idx => s.setActive idx
  | Call.loadActive _ => s

/-- The store after a sequence of calls, first call first. -/
def runCalls (s : ProfileStore) (calls : List Call) : ProfileStore :=
  calls.foldl Call.apply s

/-- A hold that stays below the long-press threshold: the poll times (values of the 32-bit
`millis ()`) do not decrease and no two of them are more than `LONG_PRESS_MS` apart. -/
abbrev ShortHold (h : List Sample) : Prop :=
  (h.map Sample.now).Pairwise (· ≤ ·) ∧
  (∀ x ∈ h, ∀ y ∈ h, y.now ≤ x.now + LONG_PRESS_MS) ∧
  ∀ x ∈ h, x.now < 4294967296

/-- The polls of a sequence of rounds, each a release `sg.1` followed by a hold `sg.2`. -/
def gapsAndHolds : List (List Sample × List Sample) → List Sample
  | [] => []
  | sg :: rest => sg.1 ++ (sg.2 ++ gapsAndHolds rest)

/-- SELECT's debounced level poll by poll in such a sequence: `HIGH` through each release,
`LOW` through each hold. -/
def gapsAndHoldsLevels : List (List Sample × List Sample) → List Int
  | [] => []
  | sg :: rest =>
    List.replicate sg.1.length HIGH ++ (List.replicate sg.2.length LOW ++ gapsAndHoldsLevels rest)
/-- Three rounds on SELECT, polls in ms: pressed from 100 (confirmed at 151) and released
from 500 (confirmed at 551); pressed again from 600 (confirmed at 651) and released from
1210 (confirmed at 1261).  The two holds last 349 and 559 ms, 908 ms in total. -/
def twoShortHolds : List (List Sample × List Sample) :=
  [([selLowAt 100], [selLowAt 151, selLowAt 400, allHighAt 500]),
   ([allHighAt 551, selLowAt 600], [selLowAt 651, selLowAt 1200, allHighAt 1210]),
   ([allHighAt 1261], [])]

/-- The cached `count` and `activeIndex` are what a fresh `begin ()` reads back from the
store's own namespace. -/
def Persisted (s : ProfileStore) : Prop :=
  ProfileStore.begin s.prefs = s

/-- A call of one of the public members of `Buttons` that change its state. -/
inductive BCall where
  | begin (rUp rDown rSel : Int)
  | poll (x : Sample)
  | upPressed
  | downPressed
  | selPressed
  | selLong

/-- The object after one call. -/
def BCall.apply (b : Buttons) : BCall → Buttons
  | BCall.begin rUp rDown rSel => b.begin rUp rDown rSel
  | BCall.poll x => b.poll x
  | BCall.upPressed => b.upPressed.2
  | BCall.downPressed => b.downPressed.2
  | BCall.selPressed => b.selPressed.2
  | BCall.selLong => b.selLong.2

/-- The object after a sequence of calls, first call first. -/
def runButtons (b : Buttons) (cs : List BCall) : Buttons :=
  cs.foldl BCall.apply b

/-- A `Buttons` object with SELECT debounced pressed, the long press fired and not yet
consumed, and a press edge of UP pending. -/
def longPending : Buttons :=
  { Buttons.init with
    lastSel := LOW, stableSel := LOW, selPressStart := 100
    longSel := true, longSelTriggered := true, upEdge := true }

/-- A profile whose name fills `name[20]`, with `hasBrake` set and `hasFG` clear. -/
def filledName : MotorProfile :=
  { MotorProfile.named "ABCDEFGHIJKLMNOPQRST" with hasBrake := true }

/-- A profile whose name fills `name[20]`, with all eight flags set and `ppr` 6. -/
def filledNameAllFlags : MotorProfile :=
  { name := "ABCDEFGHIJKLMNOPQRST", hasBrake := true, hasFG := true, hasLD := true,
    ldActiveLow := true, hasStop := true, stopActiveHigh := true, hasEnable := true,
    enableActiveHigh := true, ppr := 6, maxClockHz := 20000 }

/-! ## Theorems -/

open ProfileStore

/-! ### Keys -/

theorem toString_digit (i : Nat) (hi : i < 10) :
    (toString (i : Int)).data = [Nat.digitChar i] := by
  interval_cases i <;> rfl

theorem key_data (i : Nat) (hi : i < 10) (a : String) (ha : a.length ≤ 12) :
    (key (i : Int) a).data = 'm' :: Nat.digitChar i :: '_' :: a.data := by
  unfold key
  simp only [String.data_append, toString_digit i hi]
  simp only [List.cons_append, List.nil_append, List.singleton_append]
  apply List.take_of_length_le
  simp only [List.length_cons]
  have : a.data.length = a.length := rfl
  omega

theorem digitChar_inj (i j : Nat) (hi : i < 10) (hj : j < 10)
    (h : Nat.digitChar i = Nat.digitChar j) : i = j := by
  interval_cases i <;> interval_cases j <;> first | rfl | (exact absurd h (by decide))

theorem key_inj (i j : Nat) (hi : i < 10) (hj : j < 10) (a b : String)
    (ha : a.length ≤ 12) (hb : b.length ≤ 12) (h : key (i : Int) a = key (j : Int) b) :
    i = j ∧ a = b := by
  have h1 := congrArg String.data h
  rw [key_data i hi a ha, key_data j hj b hb] at h1
  simp only [List.cons.injEq, true_and] at h1
  exact ⟨digitChar_inj i j hi hj h1.1, String.ext h1.2⟩

theorem key_ne_count (i : Nat) (hi : i < 10) (a : String) (ha : a.length ≤ 12) :
    key (i : Int) a ≠ "count" := by
  intro h
  have h1 := congrArg String.data h
  rw [key_data i hi a ha] at h1
  have : ("count" : String).data = ['c','o','u','n','t'] := rfl
  rw [this] at h1
  simp at h1

theorem key_ne_active (i : Nat) (hi : i < 10) (a : String) (ha : a.length ≤ 12) :
    key (i : Int) a ≠ "active" := by
  intro h
  have h1 := congrArg String.data h
  rw [key_data i hi a ha] at h1
  have : ("active" : String).data = ['a','c','t','i','v','e'] := rfl
  rw [this] at h1
  simp at h1

/-! ### Reading and writing a slot -/

theorem Prefs.put_same (p : Prefs) (k : String) (v : Val) : p.put k v k = some v := by
  simp [Prefs.put]

theorem Prefs.put_other (p : Prefs) (k q : String) (v : Val) (h : q ≠ k) :
    p.put k v q = p q := by
  simp [Prefs.put, h]

theorem Prefs.remove_same (p : Prefs) (k : String) : p.remove k k = none := by
  simp [Prefs.remove]

theorem Prefs.remove_other (p : Prefs) (k q : String) (h : q ≠ k) :
    p.remove k q = p q := by
  simp [Prefs.remove, h]

theorem key_ne (i : Nat) (hi : i < 10) (a b : String)
    (ha : a.length ≤ 12) (hb : b.length ≤ 12) (hab : a ≠ b) :
    key (i : Int) a ≠ key (i : Int) b :=
  fun h => hab (key_inj i i hi hi a b ha hb h).2

theorem sfx_length (f : String) (hf : f ∈ sfx) : f.length ≤ 12 := by
  simp only [sfx, List.mem_cons, List.mem_singleton, List.not_mem_nil, or_false] at hf
  rcases hf with h | h | h | h | h | h | h | h | h | h | h <;> subst h <;> decide

theorem writeFields_other (p : Prefs) (idx : Int) (m : MotorProfile) (q : String)
    (h : ∀ f ∈ sfx, q ≠ key idx f) : writeFields p idx m q = p q := by
  have h1 := h "name" (by decide)
  have h2 := h "br" (by decide)
  have h3 := h "fg" (by decide)
  have h4 := h "ld" (by decide)
  have h5 := h "lda" (by decide)
  have h6 := h "st" (by decide)
  have h7 := h "sta" (by decide)
  have h8 := h "en" (by decide)
  have h9 := h "ena" (by decide)
  have h10 := h "ppr" (by decide)
  have h11 := h "max" (by decide)
  simp only [writeFields, Prefs.putString, Prefs.putBool, Prefs.putUChar, Prefs.putUInt,
    Prefs.put, if_neg h1, if_neg h2, if_neg h3, if_neg h4, if_neg h5, if_neg h6, if_neg h7,
    if_neg h8, if_neg h9, if_neg h10, if_neg h11]

theorem readProfile_congr (p q : Prefs) (idx : Int)
    (h : ∀ f ∈ sfx, p (key idx f) = q (key idx f)) : readProfile p idx = readProfile q idx := by
  simp only [readProfile, Prefs.getString, Prefs.getBool, Prefs.getUChar, Prefs.getUInt,
    h "name" (by decide), h "br" (by decide), h "fg" (by decide), h "ld" (by decide),
    h "lda" (by decide), h "st" (by decide), h "sta" (by decide), h "en" (by decide),
    h "ena" (by decide), h "ppr" (by decide), h "max" (by decide)]

theorem writeFields_at (p : Prefs) (i : Nat) (hi : i < 10) (m : MotorProfile) :
    writeFields p (i : Int) m (key (i : Int) "name") = some (Val.str m.nameText) ∧
    writeFields p (i : Int) m (key (i : Int) "br") = some (Val.bool m.hasBrake) ∧
    writeFields p (i : Int) m (key (i : Int) "fg") = some (Val.bool m.hasFG) ∧
    writeFields p (i : Int) m (key (i : Int) "ld") = some (Val.bool m.hasLD) ∧
    writeFields p (i : Int) m (key (i : Int) "lda") = some (Val.bool m.ldActiveLow) ∧
    writeFields p (i : Int) m (key (i : Int) "st") = some (Val.bool m.hasStop) ∧
    writeFields p (i : Int) m (key (i : Int) "sta") = some (Val.bool m.stopActiveHigh) ∧
    writeFields p (i : Int) m (key (i : Int) "en") = some (Val.bool m.hasEnable) ∧
    writeFields p (i : Int) m (key (i : Int) "ena") = some (Val.bool m.enableActiveHigh) ∧
    writeFields p (i : Int) m (key (i : Int) "ppr") = some (Val.u8 (m.ppr % 256)) ∧
    writeFields p (i : Int) m (key (i : Int) "max")
      = some (Val.u32 (m.maxClockHz % 4294967296)) := by
  dsimp only [writeFields, Prefs.putString, Prefs.putBool, Prefs.putUChar, Prefs.putUInt]
  refine ⟨?_, ?_, ?_, ?_, ?_, ?_, ?_, ?_, ?_, ?_, ?_⟩ <;>
    repeat first
      | rw [Prefs.put_other _ _ _ _ (key_ne i hi _ _ (by decide) (by decide) (by decide))]
      | exact Prefs.put_same _ _ _

/-- A name that ends in a NUL inside the array is read as it is. -/
theorem nameText_short (m : MotorProfile) (h : m.name.length ≤ 19) : m.nameText = m.name := by
  have h1 : m.name.length < 20 := by omega
  simp only [MotorProfile.nameText, if_pos h1]

/-- Whatever a C-string read of `m.name` runs into, its first 20 characters are those of
the array. -/
theorem strncpy_nameText (m : MotorProfile) : strncpy m.nameText 20 = strncpy m.name 20 := by
  unfold MotorProfile.nameText
  split
  · rfl
  · rename_i h
    have h1 : 20 ≤ m.name.data.length := by
      have h2 : m.name.length = m.name.data.length := rfl
      omega
    simp only [strncpy, List.take_append_of_le_length h1]

/-- A name that fills the array is stored together with what follows it in the struct:
21 characters with only `hasBrake` set, 29 with all eight flags set and `ppr` 6; `load`
gets the 20 characters of the array back. -/
theorem save_filled_name :
    ((ProfileStore.begin Prefs.empty).save 0 filledName).2.prefs "m0_name"
      = some (Val.str (String.mk ("ABCDEFGHIJKLMNOPQRST".data ++ [Char.ofNat 1]))) ∧
    filledName.nameText.length = 21 ∧
    filledNameAllFlags.nameText.length = 29 ∧
    (((ProfileStore.begin Prefs.empty).save 0 filledName).2.load 0 zeroed).2.name
      = "ABCDEFGHIJKLMNOPQRST" ∧
    (((ProfileStore.begin Prefs.empty).save 0 filledNameAllFlags).2.load 0 zeroed).2
      = filledNameAllFlags := by
  decide

theorem readProfile_writeFields (p : Prefs) (i : Nat) (hi : i < 10) (m : MotorProfile) :
    readProfile (writeFields p (i : Int) m) (i : Int) = m.stored := by
  obtain ⟨h1, h2, h3, h4, h5, h6, h7, h8, h9, h10, h11⟩ := writeFields_at p i hi m
  simp only [readProfile, Prefs.getString, Prefs.getBool, Prefs.getUChar, Prefs.getUInt,
    h1, h2, h3, h4, h5, h6, h7, h8, h9, h10, h11, MotorProfile.stored, Nat.mod_mod,
    strncpy_nameText]

theorem strncpy_idem (x : String) (n : Nat) : strncpy (strncpy x n) n = strncpy x n := by
  simp only [strncpy, List.take_take, min_self]

theorem strncpy_short (x : String) (n : Nat) (h : x.length ≤ n) : strncpy x n = x := by
  have h1 : x.data.length ≤ n := h
  simp only [strncpy, List.take_of_length_le h1]

theorem getUChar_mod (p : Prefs) (k : String) (d : Nat) :
    p.getUChar k d % 256 = p.getUChar k d := by
  unfold Prefs.getUChar
  split <;> simp

theorem getUInt_mod (p : Prefs) (k : String) (d : Nat) :
    p.getUInt k d % 4294967296 = p.getUInt k d := by
  unfold Prefs.getUInt
  split <;> simp

theorem stored_readProfile (p : Prefs) (idx : Int) :
    (readProfile p idx).stored = readProfile p idx := by
  simp only [MotorProfile.stored, readProfile, strncpy_idem, getUChar_mod, getUInt_mod]

theorem load_eq (s : ProfileStore) (idx : Int) (m : MotorProfile)
    (h0 : 0 ≤ idx) (h1 : idx < s.count) : s.load idx m = (true, readProfile s.prefs idx) := by
  have h : ¬ (idx < 0 ∨ idx ≥ s.count) := by omega
  simp only [load, if_neg h, readProfile]

theorem load_out (s : ProfileStore) (idx : Int) (m : MotorProfile)
    (h : idx < 0 ∨ idx ≥ s.count) : s.load idx m = (false, m) := by
  simp only [load, if_pos h]

theorem save_inplace (s : ProfileStore) (idx : Int) (m : MotorProfile)
    (h0 : 0 ≤ idx) (h8 : idx < 8) (hc : idx < s.count) :
    s.save idx m = (true, { prefs := writeFields s.prefs idx m, count := s.count,
                            activeIndex := s.activeIndex }) := by
  have h : ¬ (idx < 0 ∨ idx ≥ (MAX_PROFILES : Int)) := by simp only [MAX_PROFILES]; omega
  have h2 : ¬ (idx ≥ (s.count : Int)) := by omega
  simp only [save, if_neg h, if_neg h2]

theorem save_grow (s : ProfileStore) (idx : Int) (m : MotorProfile)
    (h0 : 0 ≤ idx) (h8 : idx < 8) (hc : (s.count : Int) ≤ idx) :
    s.save idx m = (true, { prefs := (writeFields s.prefs idx m).putUChar "count" (idx + 1).toNat,
                            count := (idx + 1).toNat, activeIndex := s.activeIndex }) := by
  have h : ¬ (idx < 0 ∨ idx ≥ (MAX_PROFILES : Int)) := by simp only [MAX_PROFILES]; omega
  have h2 : idx ≥ (s.count : Int) := by omega
  have h3 : ((idx + 1) % 256).toNat = (idx + 1).toNat := by omega
  simp only [save, if_neg h, if_pos h2, h3]

theorem save_out (s : ProfileStore) (idx : Int) (m : MotorProfile)
    (h : idx < 0 ∨ idx ≥ 8) : s.save idx m = (false, s) := by
  have h1 : idx < 0 ∨ idx ≥ (MAX_PROFILES : Int) := by simpa only [MAX_PROFILES] using h
  simp only [save, if_pos h1]

/-! ### The shifting loop of `remove` -/

theorem save_count_of_lt (s : ProfileStore) (idx : Int) (m : MotorProfile)
    (h : idx < s.count) :
    (s.save idx m).2.count = s.count ∧ (s.save idx m).2.activeIndex = s.activeIndex := by
  by_cases hr : idx < 0 ∨ idx ≥ 8
  · rw [save_out s idx m hr]
    exact ⟨rfl, rfl⟩
  · rw [save_inplace s idx m (by omega) (by omega) h]
    exact ⟨rfl, rfl⟩

/-- The loop of `remove` stops by its own condition: from loop variable `i ≥ 0`, any fuel
of at least `count - 1 - i` gives the same result, on every store. -/
theorem removeLoop_fuel (fuel extra : Nat) : ∀ (s : ProfileStore) (i : Int) (tmp : MotorProfile),
    0 ≤ i → (s.count : Int) ≤ fuel + i + 1 →
    removeLoop (fuel + extra) s i tmp = removeLoop fuel s i tmp := by
  induction fuel with
  | zero =>
    intro s i tmp _ hf
    have hc : ¬ (i < (s.count : Int) - 1) := by omega
    cases extra with
    | zero => rfl
    | succ e =>
      rw [Nat.zero_add]
      simp only [removeLoop, if_neg hc]
  | succ fuel ih =>
    intro s i tmp h0 hf
    rw [Nat.add_right_comm fuel 1 extra]
    by_cases hc : i < (s.count : Int) - 1
    · simp only [removeLoop, if_pos hc]
      apply ih _ _ _ (by omega)
      rw [(save_count_of_lt s i _ (by omega)).1]
      push_cast at hf ⊢
      omega
    · simp only [removeLoop, if_neg hc]

/-- The loop of `remove` keeps `count` and `activeIndex`, leaves every key outside the
slots it writes alone, and makes slot `j` read as slot `j + 1` did. -/
theorem removeLoop_spec (fuel : Nat) : ∀ (s : ProfileStore) (i : Nat) (tmp : MotorProfile),
    s.count ≤ 8 → s.count ≤ fuel + i + 1 →
    (removeLoop fuel s i tmp).1.count = s.count ∧
    (removeLoop fuel s i tmp).1.activeIndex = s.activeIndex ∧
    (∀ q : String, (∀ j : Nat, i ≤ j → j + 1 < s.count → ∀ f ∈ sfx, q ≠ key (j : Int) f) →
      (removeLoop fuel s i tmp).1.prefs q = s.prefs q) ∧
    (∀ j : Nat, i ≤ j → j + 1 < s.count →
      readProfile (removeLoop fuel s i tmp).1.prefs (j : Int)
        = readProfile s.prefs ((j : Int) + 1)) := by
  induction fuel with
  | zero =>
    intro s i tmp _ hf
    refine ⟨rfl, rfl, fun _ _ => rfl, ?_⟩
    intro j hij hj
    omega
  | succ fuel ih =>
    intro s i tmp h8 hf
    by_cases hc : (i : Int) < (s.count : Int) - 1
    · have hload : (s.load ((i : Int) + 1) tmp).2 = readProfile s.prefs ((i : Int) + 1) := by
        rw [load_eq s _ tmp (by omega) (by omega)]
      have hsave : (s.save (i : Int) (readProfile s.prefs ((i : Int) + 1))).2
          = { prefs := writeFields s.prefs (i : Int) (readProfile s.prefs ((i : Int) + 1)),
              count := s.count, activeIndex := s.activeIndex } := by
        rw [save_inplace s _ _ (by omega) (by omega) (by omega)]
      have hstep : removeLoop (fuel + 1) s (i : Int) tmp
          = removeLoop fuel
              { prefs := writeFields s.prefs (i : Int) (readProfile s.prefs ((i : Int) + 1)),
                count := s.count, activeIndex := s.activeIndex }
              ((i + 1 : Nat) : Int) (readProfile s.prefs ((i : Int) + 1)) := by
        simp only [removeLoop, if_pos hc, hload, hsave, Nat.cast_add, Nat.cast_one]
      rw [hstep]
      obtain ⟨ic, ia, ifr, ird⟩ := ih
        { prefs := writeFields s.prefs (i : Int) (readProfile s.prefs ((i : Int) + 1)),
          count := s.count, activeIndex := s.activeIndex }
        (i + 1) (readProfile s.prefs ((i : Int) + 1)) h8 (by simp only; omega)
      simp only at ic ia ifr ird
      refine ⟨ic, ia, ?_, ?_⟩
      · intro q hq
        rw [ifr q (fun j hj1 hj2 f hf => hq j (by omega) hj2 f hf)]
        exact writeFields_other _ _ _ _ (fun f hf => hq i (le_refl i) (by omega) f hf)
      · intro j hij hj
        rcases Nat.eq_or_lt_of_le hij with heq | hlt
        · subst heq
          rw [readProfile_congr _ (writeFields s.prefs (i : Int)
            (readProfile s.prefs ((i : Int) + 1))) (i : Int)
            (fun f hf => ifr _ (fun j hj1 _ g hg hk => by
              have := (key_inj i j (by omega) (by omega) f g (sfx_length f hf)
                (sfx_length g hg) hk).1
              omega))]
          rw [readProfile_writeFields _ i (by omega), stored_readProfile]
        · rw [ird j (by omega) hj]
          apply readProfile_congr
          intro f hf
          apply writeFields_other
          intro g hg hk
          have h1 : ((j : Int) + 1) = ((j + 1 : Nat) : Int) := by simp
          rw [h1] at hk
          have := (key_inj (j + 1) i (by omega) (by omega) f g (sfx_length f hf)
            (sfx_length g hg) hk).1
          omega
    · have hstep : removeLoop (fuel + 1) s (i : Int) tmp = (s, tmp) := by
        simp only [removeLoop, if_neg hc]
      rw [hstep]
      refine ⟨rfl, rfl, fun _ _ => rfl, ?_⟩
      intro j hij hj
      omega

/-! ### `remove` -/

theorem clearTail_other (p : Prefs) (last : Int) (q : String)
    (h : ∀ f ∈ sfx, q ≠ key last f) : clearTail p last q = p q := by
  unfold clearTail
  generalize sfx = l at h
  induction l generalizing p with
  | nil => rfl
  | cons a t ih =>
    simp only [List.foldl_cons]
    rw [ih _ (fun f hf => h f (List.mem_cons_of_mem a hf))]
    exact Prefs.remove_other _ _ _ (h a (List.mem_cons_self a t))

theorem clearTail_at (p : Prefs) (last : Int) (f : String) (hf : f ∈ sfx) :
    clearTail p last (key last f) = none := by
  unfold clearTail
  generalize sfx = l at hf
  induction l generalizing p with
  | nil => cases hf
  | cons a t ih =>
    simp only [List.foldl_cons]
    by_cases hm : f ∈ t
    · exact ih _ hm
    · have ha : f = a := by
        rcases List.mem_cons.mp hf with h | h
        · exact h
        · exact absurd h hm
      subst ha
      have hrest : ∀ (l : List String) (r : Prefs), r (key last f) = none →
          (l.foldl (fun q s => q.remove (key last s)) r) (key last f) = none := by
        intro l
        induction l with
        | nil => intro r hr; exact hr
        | cons b u ihu =>
          intro r hr
          simp only [List.foldl_cons]
          apply ihu
          simp only [Prefs.remove]
          split
          · rfl
          · exact hr
      exact hrest t _ (Prefs.remove_same _ _)

theorem remove_out (s : ProfileStore) (idx : Int) (tmp : MotorProfile)
    (h : idx < 0 ∨ idx ≥ s.count) : s.remove idx tmp = s := by
  simp only [remove, if_pos h]

theorem remove_count (s : ProfileStore) (k : Nat) (tmp : MotorProfile)
    (hN : s.count ≤ 8) (hk : k < s.count) : (s.remove (k : Int) tmp).count = s.count - 1 := by
  have h : ¬ ((k : Int) < 0 ∨ (k : Int) ≥ s.count) := by omega
  have hc := (removeLoop_spec s.count s k tmp hN (by omega)).1
  have hm : (s.count + 255) % 256 = s.count - 1 := by omega
  simp only [remove, if_neg h, hc, hm]
  split <;> rfl

theorem remove_prefs_slot (s : ProfileStore) (k : Nat) (tmp : MotorProfile)
    (hN : s.count ≤ 8) (hk : k < s.count) (j : Nat) (hj : j + 1 < s.count)
    (f : String) (hf : f ∈ sfx) :
    (s.remove (k : Int) tmp).prefs (key (j : Int) f)
      = (removeLoop s.count s (k : Int) tmp).1.prefs (key (j : Int) f) := by
  have h : ¬ ((k : Int) < 0 ∨ (k : Int) ≥ s.count) := by omega
  have hc := (removeLoop_spec s.count s k tmp hN (by omega)).1
  have hl : ((s.count : Int) - 1) = ((s.count - 1 : Nat) : Int) := by omega
  have hclear : clearTail (removeLoop s.count s (k : Int) tmp).1.prefs ((s.count : Int) - 1)
      (key (j : Int) f) = (removeLoop s.count s (k : Int) tmp).1.prefs (key (j : Int) f) := by
    apply clearTail_other
    intro g hg hk2
    rw [hl] at hk2
    have := (key_inj j (s.count - 1) (by omega) (by omega) f g (sfx_length f hf)
      (sfx_length g hg) hk2).1
    omega
  have hcnt := key_ne_count j (by omega) f (sfx_length f hf)
  have hact := key_ne_active j (by omega) f (sfx_length f hf)
  simp only [remove, if_neg h, hc]
  split
  · simp only [Prefs.putUChar, Prefs.put_other _ _ _ _ hact, Prefs.put_other _ _ _ _ hcnt, hclear]
  · simp only [Prefs.putUChar, Prefs.put_other _ _ _ _ hcnt, hclear]

theorem remove_read_below (s : ProfileStore) (k : Nat) (tmp : MotorProfile)
    (hN : s.count ≤ 8) (hk : k < s.count) (j : Nat) (hj : j < k) :
    readProfile (s.remove (k : Int) tmp).prefs (j : Int) = readProfile s.prefs (j : Int) := by
  apply readProfile_congr
  intro f hf
  rw [remove_prefs_slot s k tmp hN hk j (by omega) f hf]
  apply (removeLoop_spec s.count s k tmp hN (by omega)).2.2.1
  intro i hi1 hi2 g hg hkey
  have := (key_inj j i (by omega) (by omega) f g (sfx_length f hf) (sfx_length g hg) hkey).1
  omega

theorem remove_read_above (s : ProfileStore) (k : Nat) (tmp : MotorProfile)
    (hN : s.count ≤ 8) (hk : k < s.count) (j : Nat) (hkj : k ≤ j) (hj : j + 1 < s.count) :
    readProfile (s.remove (k : Int) tmp).prefs (j : Int)
      = readProfile s.prefs ((j : Int) + 1) := by
  rw [← (removeLoop_spec s.count s k tmp hN (by omega)).2.2.2 j hkj hj]
  apply readProfile_congr
  intro f hf
  exact remove_prefs_slot s k tmp hN hk j hj f hf

/-- C1. On a store of `N` profiles, `1 ≤ N ≤ 8`, `remove k` with `k < N` leaves `N - 1`
profiles; `load i` for `i < k` returns what it returned before, and `load i` for
`k ≤ i < N - 1` returns exactly what `load (i + 1)` returned before, all eleven fields.
Each of these loads succeeds. -/
theorem remove_shifts_down (s : ProfileStore) (k : Nat) (tmp m : MotorProfile)
    (hN : s.count ≤ 8) (hk : k < s.count) :
    (s.remove (k : Int) tmp).getCount = (s.count : Int) - 1 ∧
    (∀ i : Nat, i < k →
      (s.remove (k : Int) tmp).load (i : Int) m = s.load (i : Int) m ∧
      (s.load (i : Int) m).1 = true) ∧
    (∀ i : Nat, k ≤ i → i + 1 < s.count →
      (s.remove (k : Int) tmp).load (i : Int) m = s.load ((i : Int) + 1) m ∧
      (s.load ((i : Int) + 1) m).1 = true) := by
  have hcount := remove_count s k tmp hN hk
  refine ⟨?_, ?_, ?_⟩
  · simp only [getCount, hcount]
    omega
  · intro i hi
    rw [load_eq _ _ m (by omega) (by rw [hcount]; omega), load_eq s _ m (by omega) (by omega),
      remove_read_below s k tmp hN hk i hi]
    exact ⟨rfl, rfl⟩
  · intro i hki hi
    rw [load_eq _ _ m (by omega) (by rw [hcount]; omega), load_eq s _ m (by omega) (by omega),
      remove_read_above s k tmp hN hk i hki hi]
    exact ⟨rfl, rfl⟩

/-- C1 at a store of three slots, removing index 1. -/
theorem remove_shifts_down_witness :
    (threeSlots.count ≤ 8 ∧ 1 < threeSlots.count) ∧
    ((threeSlots.remove ((1 : Nat) : Int) zeroed).getCount
        = (threeSlots.count : Int) - 1 ∧
    (∀ i : Nat, i < 1 →
      (threeSlots.remove ((1 : Nat) : Int) zeroed).load (i : Int) zeroed
        = threeSlots.load (i : Int) zeroed ∧
      (threeSlots.load (i : Int) zeroed).1 = true) ∧
    (∀ i : Nat, 1 ≤ i → i + 1 < threeSlots.count →
      (threeSlots.remove ((1 : Nat) : Int) zeroed).load (i : Int) zeroed
        = threeSlots.load ((i : Int) + 1) zeroed ∧
      (threeSlots.load ((i : Int) + 1) zeroed).1 = true)) :=
  ⟨by decide,
   remove_shifts_down threeSlots 1 zeroed zeroed
     (by decide) (by decide)⟩

/-! ### `save`, `append`, `setActive` slot by slot -/

theorem readProfile_put_other (p : Prefs) (k : String) (v : Val) (j : Nat)
    (hk : ∀ f ∈ sfx, key (j : Int) f ≠ k) :
    readProfile (p.put k v) (j : Int) = readProfile p (j : Int) := by
  apply readProfile_congr
  intro f hf
  exact Prefs.put_other _ _ _ _ (hk f hf)

theorem readProfile_putUChar_count (p : Prefs) (n : Nat) (j : Nat) (hj : j < 10) :
    readProfile (p.putUChar "count" n) (j : Int) = readProfile p (j : Int) :=
  readProfile_put_other p _ _ j (fun f hf => key_ne_count j hj f (sfx_length f hf))

theorem readProfile_putUChar_active (p : Prefs) (n : Nat) (j : Nat) (hj : j < 10) :
    readProfile (p.putUChar "active" n) (j : Int) = readProfile p (j : Int) :=
  readProfile_put_other p _ _ j (fun f hf => key_ne_active j hj f (sfx_length f hf))

theorem readProfile_writeFields_other (p : Prefs) (i j : Nat) (hi : i < 10) (hj : j < 10)
    (hij : j ≠ i) (m : MotorProfile) :
    readProfile (writeFields p (i : Int) m) (j : Int) = readProfile p (j : Int) := by
  apply readProfile_congr
  intro f hf
  apply writeFields_other
  intro g hg hk
  exact hij (key_inj j i hj hi f g (sfx_length f hf) (sfx_length g hg) hk).1

theorem stored_of_fits (p : MotorProfile) (hname : p.name.length ≤ 19) (hppr : p.ppr < 256)
    (hmax : p.maxClockHz < 4294967296) : p.stored = p := by
  cases p
  simp only [MotorProfile.stored, MotorProfile.mk.injEq, and_true, true_and] at *
  exact ⟨strncpy_short _ _ (by omega), Nat.mod_eq_of_lt hppr, Nat.mod_eq_of_lt hmax⟩

/-- What an accepted `save` does to the store, read slot by slot. -/
theorem save_spec (s : ProfileStore) (i : Nat) (m : MotorProfile) (hi : i < 8) :
    (s.save (i : Int) m).1 = true ∧
    (s.save (i : Int) m).2.count = max s.count (i + 1) ∧
    (s.save (i : Int) m).2.activeIndex = s.activeIndex ∧
    readProfile (s.save (i : Int) m).2.prefs (i : Int) = m.stored ∧
    (∀ j : Nat, j < 10 → j ≠ i →
      readProfile (s.save (i : Int) m).2.prefs (j : Int) = readProfile s.prefs (j : Int)) := by
  by_cases hc : i < s.count
  · rw [save_inplace s _ m (by omega) (by omega) (by omega)]
    dsimp only
    refine ⟨rfl, ?_, rfl, ?_, ?_⟩
    · omega
    · exact readProfile_writeFields _ i (by omega) m
    · intro j hj hji
      exact readProfile_writeFields_other _ i j (by omega) hj hji m
  · rw [save_grow s _ m (by omega) (by omega) (by omega)]
    have h1 : ((i : Int) + 1).toNat = i + 1 := by omega
    dsimp only
    refine ⟨rfl, ?_, rfl, ?_, ?_⟩
    · rw [h1]; omega
    · rw [readProfile_putUChar_count _ _ i (by omega)]
      exact readProfile_writeFields _ i (by omega) m
    · intro j hj hji
      rw [readProfile_putUChar_count _ _ j hj]
      exact readProfile_writeFields_other _ i j (by omega) hj hji m

theorem append_full (s : ProfileStore) (m : MotorProfile) (h : 8 ≤ s.count) :
    s.append m = (false, s) := by
  have h1 : s.count ≥ MAX_PROFILES := h
  simp only [append, if_pos h1]

theorem append_eq_save (s : ProfileStore) (m : MotorProfile) (h : s.count < 8) :
    s.append m = s.save (s.count : Int) m := by
  have h1 : ¬ (s.count ≥ MAX_PROFILES) := by simp only [MAX_PROFILES]; omega
  simp only [append, if_neg h1]

/-- What an accepted `append` does to the store, read slot by slot. -/
theorem append_spec (s : ProfileStore) (m : MotorProfile) (h : s.count < 8) :
    (s.append m).1 = true ∧
    (s.append m).2.count = s.count + 1 ∧
    (s.append m).2.activeIndex = s.activeIndex ∧
    readProfile (s.append m).2.prefs (s.count : Int) = m.stored ∧
    (∀ j : Nat, j < 10 → j ≠ s.count →
      readProfile (s.append m).2.prefs (j : Int) = readProfile s.prefs (j : Int)) := by
  rw [append_eq_save s m h]
  obtain ⟨h1, h2, h3, h4, h5⟩ := save_spec s s.count m h
  refine ⟨h1, ?_, h3, h4, h5⟩
  rw [h2]; omega

theorem setActive_spec (s : ProfileStore) (i : Nat) (hi : i < s.count) (h8 : s.count ≤ 8) :
    (s.setActive (i : Int)).count = s.count ∧
    (s.setActive (i : Int)).activeIndex = i ∧
    (∀ j : Nat, j < 10 →
      readProfile (s.setActive (i : Int)).prefs (j : Int) = readProfile s.prefs (j : Int)) := by
  have h : (i : Int) ≥ 0 ∧ (i : Int) < s.count := by omega
  have h1 : ((i : Int) % 256).toNat = i := by omega
  simp only [setActive, if_pos h, h1, true_and]
  intro j hj
  exact readProfile_putUChar_active _ _ j hj

theorem setActive_out (s : ProfileStore) (idx : Int) (h : idx < 0 ∨ idx ≥ s.count) :
    s.setActive idx = s := by
  have h1 : ¬ (idx ≥ 0 ∧ idx < s.count) := by omega
  simp only [setActive, if_neg h1]

theorem remove_active (s : ProfileStore) (k : Nat) (tmp : MotorProfile)
    (hN : s.count ≤ 8) (hk : k < s.count) :
    (s.remove (k : Int) tmp).activeIndex
      = if s.activeIndex ≥ s.count - 1 then (if s.count - 1 > 0 then 0 else 255)
        else s.activeIndex := by
  have h : ¬ ((k : Int) < 0 ∨ (k : Int) ≥ s.count) := by omega
  obtain ⟨hc, ha, _, _⟩ := removeLoop_spec s.count s k tmp hN (by omega)
  have hm : (s.count + 255) % 256 = s.count - 1 := by omega
  simp only [remove, if_neg h, hc, ha, hm]
  split <;> rfl

/-! ### The scenario of three profiles -/

theorem stored_name (m : MotorProfile) : m.stored.name = strncpy m.name 20 := rfl

/-- Three appends to an empty store, `setActive (1)`, `remove (0)`: the resulting count,
active index and the two remaining slots. -/
theorem three_appends_remove (s0 : ProfileStore) (pa pb pc tmp : MotorProfile)
    (c0 : s0.count = 0) :
    (((((s0.append pa).2.append pb).2.append pc).2.setActive 1).remove 0 tmp).count = 2 ∧
    (((((s0.append pa).2.append pb).2.append pc).2.setActive 1).remove 0 tmp).activeIndex = 1 ∧
    readProfile (((((s0.append pa).2.append pb).2.append pc).2.setActive 1).remove 0 tmp).prefs 0
      = pb.stored ∧
    readProfile (((((s0.append pa).2.append pb).2.append pc).2.setActive 1).remove 0 tmp).prefs 1
      = pc.stored := by
  obtain ⟨-, c1, -, -, -⟩ := append_spec s0 pa (by omega)
  rw [c0] at c1
  obtain ⟨-, c2, -, r2, -⟩ := append_spec (s0.append pa).2 pb (by omega)
  rw [c1] at c2 r2
  obtain ⟨-, c3, -, r3, k3⟩ := append_spec ((s0.append pa).2.append pb).2 pc (by omega)
  rw [c2] at c3 r3 k3
  obtain ⟨c4, a4, k4⟩ := setActive_spec (((s0.append pa).2.append pb).2.append pc).2 1
    (by omega) (by omega)
  rw [c3] at c4
  have k31 := k3 1 (by omega) (by omega)
  have k41 := k4 1 (by omega)
  have k42 := k4 2 (by omega)
  simp only [Nat.cast_zero, Nat.cast_one, Nat.cast_ofNat, zero_add, Nat.reduceAdd]
    at c4 a4 r2 r3 k31 k41 k42
  have hrm := remove_count ((((s0.append pa).2.append pb).2.append pc).2.setActive 1) 0 tmp
    (by omega) (by omega)
  have harm := remove_active ((((s0.append pa).2.append pb).2.append pc).2.setActive 1) 0 tmp
    (by omega) (by omega)
  have hr0 := remove_read_above ((((s0.append pa).2.append pb).2.append pc).2.setActive 1) 0 tmp
    (by omega) (by omega) 0 (le_refl 0) (by omega)
  have hr1 := remove_read_above ((((s0.append pa).2.append pb).2.append pc).2.setActive 1) 0 tmp
    (by omega) (by omega) 1 (by omega) (by omega)
  rw [c4] at hrm harm
  rw [a4] at harm
  simp only [Nat.cast_zero, Nat.cast_one, zero_add, Int.reduceAdd] at hrm harm hr0 hr1
  refine ⟨hrm, ?_, ?_, ?_⟩
  · rw [harm]; rfl
  · rw [hr0, k41, k31, r2]
  · rw [hr1, k42, r3]

/-- The state the scenario reaches, slot by slot. -/
theorem scenarioABC_spec (a b c tmp : MotorProfile) :
    (scenarioABC a b c tmp).count = 2 ∧
    (scenarioABC a b c tmp).activeIndex = 1 ∧
    (readProfile (scenarioABC a b c tmp).prefs 0).name = "B" ∧
    (readProfile (scenarioABC a b c tmp).prefs 1).name = "C" := by
  obtain ⟨h1, h2, h3, h4⟩ := three_appends_remove (ProfileStore.begin Prefs.empty)
    { a with name := "A" } { b with name := "B" } { c with name := "C" } tmp rfl
  refine ⟨h1, h2, ?_, ?_⟩
  · show (readProfile _ 0).name = "B"
    rw [scenarioABC, h3, stored_name]
    rfl
  · show (readProfile _ 1).name = "C"
    rw [scenarioABC, h4, stored_name]
    rfl

/-- C2, as the code behaves.  After appending "A", "B", "C" to an empty opened store,
`setActive (1)` and `remove (0)`: `getCount () = 2`, `load (0)` succeeds with name "B",
`load (1)` succeeds with name "C", and `getActiveIndex ()` is still 1, because 1 is not
out of range for a store of two. -/
theorem scenarioABC_result (a b c tmp m : MotorProfile) :
    (scenarioABC a b c tmp).getCount = 2 ∧
    ((scenarioABC a b c tmp).load 0 m).1 = true ∧
    ((scenarioABC a b c tmp).load 0 m).2.name = "B" ∧
    ((scenarioABC a b c tmp).load 1 m).1 = true ∧
    ((scenarioABC a b c tmp).load 1 m).2.name = "C" ∧
    (scenarioABC a b c tmp).getActiveIndex = 1 := by
  obtain ⟨hc, ha, h0, h1⟩ := scenarioABC_spec a b c tmp
  rw [load_eq _ 0 m (by omega) (by rw [hc]; norm_num),
    load_eq _ 1 m (by omega) (by rw [hc]; norm_num)]
  simp only [getCount, getActiveIndex, hc, ha, h0, h1]
  decide

/-- C2 as stated fails: in the scenario run on zero-filled profiles the four expected
values do not all hold, the active index being 1 and not 0. -/
theorem scenarioABC_active_not_healed :
    ¬ ((scenarioABC zeroed zeroed zeroed
          zeroed).getCount = 2 ∧
       ((scenarioABC zeroed zeroed zeroed
          zeroed).load 0 zeroed).2.name = "B" ∧
       ((scenarioABC zeroed zeroed zeroed
          zeroed).load 1 zeroed).2.name = "C" ∧
       (scenarioABC zeroed zeroed zeroed
          zeroed).getActiveIndex = 0) := by
  decide

/-! ### The active index -/

theorem begin_count_le (nvs : Prefs) : (ProfileStore.begin nvs).count ≤ 8 := by
  simp only [ProfileStore.begin, MAX_PROFILES]
  split <;> omega

/-- One call keeps `count ≤ 8` and the sentinel-or-valid condition together. -/
theorem Op.apply_keeps (s : ProfileStore) (op : Op) (h8 : s.count ≤ 8) (h : ActiveOk s) :
    (op.apply s).count ≤ 8 ∧ ActiveOk (op.apply s) := by
  unfold ActiveOk at h ⊢
  cases op with
  | save idx m =>
    simp only [Op.apply]
    by_cases hr : idx < 0 ∨ idx ≥ 8
    · rw [save_out s idx m hr]; exact ⟨h8, h⟩
    · obtain ⟨k, rfl⟩ := Int.eq_ofNat_of_zero_le (by omega : 0 ≤ idx)
      obtain ⟨-, hc, ha, -, -⟩ := save_spec s k m (by omega)
      rw [hc, ha]
      omega
  | append m =>
    simp only [Op.apply]
    by_cases hf : 8 ≤ s.count
    · rw [append_full s m hf]; exact ⟨h8, h⟩
    · obtain ⟨-, hc, ha, -, -⟩ := append_spec s m (by omega)
      rw [hc, ha]
      omega
  | remove idx tmp =>
    simp only [Op.apply]
    by_cases hr : idx < 0 ∨ idx ≥ s.count
    · rw [remove_out s idx tmp hr]; exact ⟨h8, h⟩
    · obtain ⟨k, rfl⟩ := Int.eq_ofNat_of_zero_le (by omega : 0 ≤ idx)
      rw [remove_count s k tmp h8 (by omega), remove_active s k tmp h8 (by omega)]
      refine ⟨by omega, ?_⟩
      split
      · split <;> omega
      · omega
  | setActive idx =>
    simp only [Op.apply]
    by_cases hr : idx < 0 ∨ idx ≥ s.count
    · rw [setActive_out s idx hr]; exact ⟨h8, h⟩
    · obtain ⟨k, rfl⟩ := Int.eq_ofNat_of_zero_le (by omega : 0 ≤ idx)
      obtain ⟨hc, ha, -⟩ := setActive_spec s k (by omega) h8
      rw [hc, ha]
      omega

theorem runOps_keeps (ops : List Op) : ∀ s : ProfileStore, s.count ≤ 8 → ActiveOk s →
    (runOps s ops).count ≤ 8 ∧ ActiveOk (runOps s ops) := by
  induction ops with
  | nil => intro s h8 h; exact ⟨h8, h⟩
  | cons op rest ih =>
    intro s h8 h
    obtain ⟨h8a, ha⟩ := Op.apply_keeps s op h8 h
    exact ih (op.apply s) h8a ha

/-- C3, as the code behaves.  `save`, `append`, `remove` and `setActive` keep the active
index either 255 or below `count`: if that holds in the state `begin ()` produces, it
holds after any sequence of these calls.  (`begin ()` itself copies the stored byte and
does not establish it.) -/
theorem activeIndex_kept (nvs : Prefs) (ops : List Op)
    (h : ActiveOk (ProfileStore.begin nvs)) : ActiveOk (runOps (ProfileStore.begin nvs) ops) :=
  (runOps_keeps ops (ProfileStore.begin nvs) (begin_count_le nvs) h).2

/-- C3 at a namespace holding count 2 and active 255, with four calls. -/
theorem activeIndex_kept_witness :
    ActiveOk (ProfileStore.begin noneActive) ∧
    ActiveOk (runOps (ProfileStore.begin noneActive)
      [Op.append (MotorProfile.named "A"), Op.setActive 2, Op.remove 0 zeroed,
       Op.save 5 (MotorProfile.named "B")]) :=
  ⟨by unfold ActiveOk; decide, activeIndex_kept noneActive _ (by unfold ActiveOk; decide)⟩

/-- C3 as stated fails.  On a namespace with no keys `begin ()` leaves `activeIndex = 0`
with `count = 0`, which is neither 255 nor below `count`, also after a rejected
`setActive`; and a stored active byte 5 with count 2 survives `begin ()` and a `save`. -/
theorem activeIndex_not_always_valid :
    ¬ ActiveOk (ProfileStore.begin Prefs.empty) ∧
    ¬ ActiveOk (runOps (ProfileStore.begin Prefs.empty) [Op.setActive 0]) ∧
    ¬ ActiveOk (runOps (ProfileStore.begin staleActive) [Op.save 0 (MotorProfile.named "A")]) := by
  unfold ActiveOk
  decide

/-! ### Round trip and capacity -/

/-- C4. On a store with `count = n < 8`, appending a profile whose name has at most 19
characters (and whose `ppr` and `maxClockHz` are values of `uint8_t` and `uint32_t`)
returns ok, and `load (n)` right after succeeds and yields that profile, equal in all
eleven fields; on an empty store this is `load (0)`. -/
theorem append_load_roundtrip (s : ProfileStore) (p m : MotorProfile)
    (hn : s.count < 8) (hname : p.name.length ≤ 19) (hppr : p.ppr < 256)
    (hmax : p.maxClockHz < 4294967296) :
    (s.append p).1 = true ∧
    (s.append p).2.load (s.count : Int) m = (true, p) ∧
    (s.count = 0 → (s.append p).2.load 0 m = (true, p)) := by
  obtain ⟨h1, hc, -, hr, -⟩ := append_spec s p hn
  have hload : (s.append p).2.load (s.count : Int) m = (true, p) := by
    rw [load_eq _ _ m (by omega) (by rw [hc]; omega), hr, stored_of_fits p hname hppr hmax]
  refine ⟨h1, hload, ?_⟩
  intro h0
  rw [h0] at hload
  exact hload

/-- C4 on the empty opened store with a profile named "Pump". -/
theorem append_load_roundtrip_witness :
    ((ProfileStore.begin Prefs.empty).count < 8 ∧ pump.name.length ≤ 19 ∧
      pump.ppr < 256 ∧
      pump.maxClockHz < 4294967296) ∧
    (((ProfileStore.begin Prefs.empty).append pump).1 = true ∧
     ((ProfileStore.begin Prefs.empty).append pump).2.load
        ((ProfileStore.begin Prefs.empty).count : Int) zeroed
        = (true, MotorProfile.named "Pump") ∧
     ((ProfileStore.begin Prefs.empty).count = 0 →
        ((ProfileStore.begin Prefs.empty).append pump).2.load 0
          zeroed = (true, MotorProfile.named "Pump"))) :=
  ⟨by decide,
   append_load_roundtrip (ProfileStore.begin Prefs.empty) pump
     zeroed (by decide) (by decide) (by decide) (by decide)⟩

theorem appendAll_spec (ms : List MotorProfile) : ∀ s : ProfileStore,
    s.count + ms.length ≤ 8 →
    (appendAll s ms).1 = List.replicate ms.length true ∧
    (appendAll s ms).2.count = s.count + ms.length := by
  induction ms with
  | nil => intro s _; exact ⟨rfl, rfl⟩
  | cons m rest ih =>
    intro s h
    simp only [List.length_cons] at h
    obtain ⟨h1, hc, -, -, -⟩ := append_spec s m (by omega)
    obtain ⟨i1, i2⟩ := ih (s.append m).2 (by rw [hc]; omega)
    simp only [appendAll, List.length_cons, List.replicate_succ, h1, i1, i2, hc, true_and]
    omega

/-- C5. From a store with no profiles, eight consecutive `append` calls all return ok and
leave `count = 8`; on a store with `count = 8`, `append` returns rejected and the store
is the same afterwards: `count`, `activeIndex` and every key. -/
theorem append_capacity (s t : ProfileStore) (ms : List MotorProfile) (p : MotorProfile)
    (h0 : s.count = 0) (hlen : ms.length = 8) (h8 : t.count = 8) :
    (appendAll s ms).1 = List.replicate 8 true ∧
    (appendAll s ms).2.count = 8 ∧
    (t.append p).1 = false ∧
    (t.append p).2.count = t.count ∧
    (t.append p).2.activeIndex = t.activeIndex ∧
    (∀ q : String, (t.append p).2.prefs q = t.prefs q) := by
  obtain ⟨a1, a2⟩ := appendAll_spec ms s (by omega)
  rw [hlen] at a1 a2
  rw [append_full t p (by omega)]
  exact ⟨a1, by omega, rfl, rfl, rfl, fun _ => rfl⟩

/-- C5 on the empty opened store with eight named profiles, and on a store of eight. -/
theorem append_capacity_witness :
    ((ProfileStore.begin Prefs.empty).count = 0 ∧ eightProfiles.length = 8 ∧
      fullStore.count = 8) ∧
    ((appendAll (ProfileStore.begin Prefs.empty) eightProfiles).1 = List.replicate 8 true ∧
     (appendAll (ProfileStore.begin Prefs.empty) eightProfiles).2.count = 8 ∧
     (fullStore.append (MotorProfile.named "P8")).1 = false ∧
     (fullStore.append (MotorProfile.named "P8")).2.count = fullStore.count ∧
     (fullStore.append (MotorProfile.named "P8")).2.activeIndex = fullStore.activeIndex ∧
     (∀ q : String, (fullStore.append (MotorProfile.named "P8")).2.prefs q = fullStore.prefs q)) :=
  ⟨by decide,
   append_capacity (ProfileStore.begin Prefs.empty) fullStore eightProfiles
     (MotorProfile.named "P8") (by decide) (by decide) (by decide)⟩

/-! ### Debouncing one channel -/

theorem subUL_self (a : Nat) : subUL a a = 0 := by
  unfold subUL
  omega

theorem processButton_change (c : Chan) (r : Int) (now : Nat) (hr : r ≠ c.last) :
    processButton r { c with edge := false } now
      = { last := r, stable := c.stable, debounceTime := now, edge := false } := by
  simp [processButton, hr, subUL_self]

theorem processButton_wait (c : Chan) (r : Int) (now : Nat) (hr : r = c.last)
    (hd : subUL now c.debounceTime ≤ 50) :
    processButton r { c with edge := false } now
      = { last := r, stable := c.stable, debounceTime := c.debounceTime, edge := false } := by
  have h : ¬ (subUL now c.debounceTime > 50) := by omega
  simp [processButton, hr, h]

theorem processButton_confirm (c : Chan) (r : Int) (now : Nat) (hr : r = c.last)
    (hs : r ≠ c.stable) (hd : subUL now c.debounceTime > 50) :
    processButton r { c with edge := false } now
      = { last := r, stable := r, debounceTime := c.debounceTime, edge := decide (r = LOW) } := by
  subst hr
  by_cases h0 : c.last = LOW
  · have hs2 : ¬ (LOW = c.stable) := by rw [← h0]; exact hs
    simp [processButton, hd, h0, hs2]
  · simp [processButton, hs, hd, h0]

theorem processButton_same (c : Chan) (r : Int) (now : Nat) (hs : r = c.stable) :
    (processButton r { c with edge := false } now).stable = c.stable ∧
    (processButton r { c with edge := false } now).edge = false ∧
    (processButton r { c with edge := false } now).last = r := by
  subst hs
  by_cases h : c.stable = c.last
  · simp [processButton, h]
  · simp [processButton, h, subUL_self]

theorem chan_poll (ch : Channel) (b : Buttons) (x : Sample) :
    (b.poll x).chan ch
      = processButton (x.reading ch) { b.chan ch with edge := false } (x.now % 4294967296) := by
  cases ch <;> simp only [Buttons.poll, Buttons.chan, Sample.reading] <;> split_ifs <;> rfl

theorem consume_fst (ch : Channel) (b : Buttons) : (b.consume ch).1 = (b.chan ch).edge := by
  cases ch <;> rfl

theorem poll_consume (ch : Channel) (b : Buttons) (x : Sample) :
    (b.consume ch).2.poll x = b.poll x := by
  cases ch <;> rfl

theorem pollConsume_eq (ch : Channel) (xs : List Sample) : ∀ b : Buttons,
    pollConsume ch b xs
      = (pollAll b xs).map
          fun st => ((st.chan ch).stable, (st.chan ch).edge, (st.chan ch).edge) := by
  induction xs with
  | nil => intro b; rfl
  | cons x rest ih =>
    intro b
    have hrest : pollAll ((b.poll x).consume ch).2 rest = pollAll (b.poll x) rest := by
      cases rest with
      | nil => rfl
      | cons y ys => simp only [pollAll, poll_consume]
    simp only [pollConsume, pollAll, List.map_cons, ih, consume_fst, hrest]

theorem pollAll_append (xs ys : List Sample) : ∀ b : Buttons,
    pollAll b (xs ++ ys) = pollAll b xs ++ pollAll (pollEnd b xs) ys := by
  induction xs with
  | nil => intro b; rfl
  | cons x rest ih =>
    intro b
    rw [List.cons_append, pollAll, pollAll, ih (b.poll x)]
    rfl

theorem chanTrace_append (ch : Channel) (xs ys : List Sample) (b : Buttons) :
    chanTrace ch b (xs ++ ys) = chanTrace ch b xs ++ chanTrace ch (pollEnd b xs) ys := by
  simp only [chanTrace, pollAll_append, List.map_append]

theorem chanTrace_cons (ch : Channel) (x : Sample) (xs : List Sample) (b : Buttons) :
    chanTrace ch b (x :: xs)
      = (((b.poll x).chan ch).stable, ((b.poll x).chan ch).edge) :: chanTrace ch (b.poll x) xs := by
  simp only [chanTrace, pollAll, List.map_cons]

theorem pollEnd_cons (x : Sample) (xs : List Sample) (b : Buttons) :
    pollEnd b (x :: xs) = pollEnd (b.poll x) xs := rfl

theorem subUL_mod (a b : Nat) (hb : b ≤ a) :
    subUL (a % 4294967296) (b % 4294967296) = (a - b) % 4294967296 := by
  unfold subUL
  omega

/-- While the samples stay at the level `v` first seen at time `t0` and come no later than
`t0 + 50`, the debounced level `S` stays and no edge is flagged. -/
theorem hold_within_window (ch : Channel) (v S : Int) (t0 : Nat) :
    ∀ (xs : List Sample) (b : Buttons),
    (b.chan ch).last = v → (b.chan ch).stable = S →
    (b.chan ch).debounceTime = t0 % 4294967296 →
    (∀ x ∈ xs, x.reading ch = v ∧ t0 ≤ x.now ∧ x.now ≤ t0 + 50) →
    chanTrace ch b xs = List.replicate xs.length (S, false) ∧
    ((pollEnd b xs).chan ch).last = v ∧ ((pollEnd b xs).chan ch).stable = S ∧
    ((pollEnd b xs).chan ch).debounceTime = t0 % 4294967296 := by
  intro xs
  induction xs with
  | nil => intro b hl hs hd _; exact ⟨rfl, hl, hs, hd⟩
  | cons x rest ih =>
    intro b hl hs hd hx
    obtain ⟨hr, ht0, ht1⟩ := hx x (List.mem_cons_self x rest)
    have hsub : subUL (x.now % 4294967296) (b.chan ch).debounceTime ≤ 50 := by
      rw [hd, subUL_mod _ _ ht0]
      omega
    have hp := chan_poll ch b x
    rw [processButton_wait (b.chan ch) (x.reading ch) _ (by rw [hr, hl]) hsub] at hp
    obtain ⟨i1, i2, i3, i4⟩ := ih (b.poll x) (by rw [hp]; exact hr) (by rw [hp]; exact hs)
      (by rw [hp]; exact hd) (fun z hz => hx z (List.mem_cons_of_mem x hz))
    rw [chanTrace_cons, pollEnd_cons, i1, hp]
    exact ⟨by simp only [hs, List.length_cons, List.replicate_succ], i2, i3, i4⟩

/-- While the samples equal the debounced level, it stays and no edge is flagged. -/
theorem steady_level (ch : Channel) (v : Int) : ∀ (xs : List Sample) (b : Buttons),
    (b.chan ch).stable = v → (∀ x ∈ xs, x.reading ch = v) →
    chanTrace ch b xs = List.replicate xs.length (v, false) ∧
    ((pollEnd b xs).chan ch).stable = v := by
  intro xs
  induction xs with
  | nil => intro b hs _; exact ⟨rfl, hs⟩
  | cons x rest ih =>
    intro b hs hx
    have hr := hx x (List.mem_cons_self x rest)
    have hp := chan_poll ch b x
    obtain ⟨p1, p2, -⟩ := processButton_same (b.chan ch) (x.reading ch) (x.now % 4294967296)
      (by rw [hr, hs])
    rw [← hp] at p1 p2
    obtain ⟨i1, i2⟩ := ih (b.poll x) (by rw [p1]; exact hs)
      (fun z hz => hx z (List.mem_cons_of_mem x hz))
    rw [chanTrace_cons, pollEnd_cons, i1, p1, p2, hs]
    exact ⟨by simp only [List.length_cons, List.replicate_succ], i2⟩

/-- The first sample at a new level `v` after `last = stable` only restarts the timer. -/
theorem first_change (ch : Channel) (b : Buttons) (x0 : Sample)
    (hls : (b.chan ch).last = (b.chan ch).stable) (hv : x0.reading ch ≠ (b.chan ch).stable) :
    (b.poll x0).chan ch
      = { last := x0.reading ch, stable := (b.chan ch).stable,
          debounceTime := x0.now % 4294967296, edge := false } := by
  rw [chan_poll, processButton_change (b.chan ch) _ _ (by rw [hls]; exact hv)]

/-- A run at one level different from the debounced one, seen first at `x0` and lasting no
longer than 50 ms, leaves the debounced level alone and flags no edge. -/
theorem short_run (ch : Channel) (b : Buttons) (x0 : Sample) (rest : List Sample)
    (hls : (b.chan ch).last = (b.chan ch).stable) (hv : x0.reading ch ≠ (b.chan ch).stable)
    (hrest : ∀ x ∈ rest, x.reading ch = x0.reading ch ∧ x0.now ≤ x.now ∧ x.now ≤ x0.now + 50) :
    chanTrace ch b (x0 :: rest) = List.replicate (rest.length + 1) ((b.chan ch).stable, false) ∧
    ((pollEnd b (x0 :: rest)).chan ch).last = x0.reading ch ∧
    ((pollEnd b (x0 :: rest)).chan ch).stable = (b.chan ch).stable ∧
    ((pollEnd b (x0 :: rest)).chan ch).debounceTime = x0.now % 4294967296 := by
  have hp := first_change ch b x0 hls hv
  obtain ⟨i1, i2, i3, i4⟩ := hold_within_window ch (x0.reading ch) (b.chan ch).stable x0.now
    rest (b.poll x0) (by rw [hp]) (by rw [hp]) (by rw [hp]) hrest
  rw [chanTrace_cons, pollEnd_cons, i1, hp]
  exact ⟨by simp only [List.replicate_succ], i2, i3, i4⟩

theorem pollConsume_of_trace (ch : Channel) (b : Buttons) (xs : List Sample) :
    pollConsume ch b xs = (chanTrace ch b xs).map fun e => (e.1, e.2, e.2) := by
  rw [pollConsume_eq, chanTrace, List.map_map]
  rfl

/-- C6, as the code behaves.  A channel is stably released (`last = stable = HIGH`); from
the poll `x0` on it samples pressed; the polls `pre` come within 50 ms of `x0`, the poll `y`
comes more than 50 ms after `x0`, the polls `post` follow.  Then the debounced level turns
pressed at `y`, the press-edge flag is true after `y` and after no other poll, and the
channel's consume query, called after each poll, returns true at `y` and only there. -/
theorem press_edge_once (ch : Channel) (b : Buttons) (x0 y : Sample) (pre post : List Sample)
    (hs : (b.chan ch).stable = HIGH) (hl : (b.chan ch).last = HIGH)
    (h0 : x0.reading ch = LOW)
    (hpre : ∀ x ∈ pre, x.reading ch = LOW ∧ x0.now ≤ x.now ∧ x.now ≤ x0.now + 50)
    (hy : y.reading ch = LOW) (hyt : x0.now + 50 < y.now) (hyM : y.now < 4294967296)
    (hpost : ∀ x ∈ post, x.reading ch = LOW) :
    chanTrace ch b (x0 :: (pre ++ y :: post))
      = List.replicate (pre.length + 1) (HIGH, false) ++
          (LOW, true) :: List.replicate post.length (LOW, false) ∧
    pollConsume ch b (x0 :: (pre ++ y :: post))
      = List.replicate (pre.length + 1) (HIGH, false, false) ++
          (LOW, true, true) :: List.replicate post.length (LOW, false, false) := by
  have hls : (b.chan ch).last = (b.chan ch).stable := by rw [hs, hl]
  have hv : x0.reading ch ≠ (b.chan ch).stable := by rw [hs, h0]; decide
  obtain ⟨r1, r2, r3, r4⟩ := short_run ch b x0 pre hls hv
    (fun x hx => by rw [h0]; exact hpre x hx)
  rw [hs] at r1 r3
  rw [h0] at r2
  have hsub : subUL (y.now % 4294967296) ((pollEnd b (x0 :: pre)).chan ch).debounceTime > 50 := by
    rw [r4, subUL_mod _ _ (by omega)]
    omega
  have hp := chan_poll ch (pollEnd b (x0 :: pre)) y
  rw [processButton_confirm _ (y.reading ch) _ (by rw [hy, r2]) (by rw [hy, r3]; decide) hsub]
    at hp
  obtain ⟨q1, -⟩ := steady_level ch LOW post ((pollEnd b (x0 :: pre)).poll y)
    (by rw [hp]; exact hy) hpost
  have htrace : chanTrace ch b (x0 :: (pre ++ y :: post))
      = List.replicate (pre.length + 1) (HIGH, false) ++
          (LOW, true) :: List.replicate post.length (LOW, false) := by
    rw [← List.cons_append, chanTrace_append, r1, chanTrace_cons, q1, hp]
    simp only [hy, decide_True]
  refine ⟨htrace, ?_⟩
  rw [pollConsume_of_trace, htrace]
  simp only [List.map_append, List.map_replicate, List.map_cons]

/-- C6 on a fresh `Buttons` object: UP sampled pressed at 100, 120, 150, 151 and 400 ms. -/
theorem press_edge_once_witness :
    (((Buttons.init.chan Channel.up).stable = HIGH ∧ (Buttons.init.chan Channel.up).last = HIGH ∧
      (upLowAt 100).reading Channel.up = LOW ∧
      (∀ x ∈ [upLowAt 120, upLowAt 150],
        x.reading Channel.up = LOW ∧ (upLowAt 100).now ≤ x.now ∧ x.now ≤ (upLowAt 100).now + 50) ∧
      (upLowAt 151).reading Channel.up = LOW ∧ (upLowAt 100).now + 50 < (upLowAt 151).now ∧
      (upLowAt 151).now < 4294967296 ∧
      (∀ x ∈ [upLowAt 400], x.reading Channel.up = LOW))) ∧
    (chanTrace Channel.up Buttons.init
        (upLowAt 100 :: ([upLowAt 120, upLowAt 150] ++ upLowAt 151 :: [upLowAt 400]))
      = List.replicate ([upLowAt 120, upLowAt 150].length + 1) (HIGH, false) ++
          (LOW, true) :: List.replicate [upLowAt 400].length (LOW, false) ∧
     pollConsume Channel.up Buttons.init
        (upLowAt 100 :: ([upLowAt 120, upLowAt 150] ++ upLowAt 151 :: [upLowAt 400]))
      = List.replicate ([upLowAt 120, upLowAt 150].length + 1) (HIGH, false, false) ++
          (LOW, true, true) :: List.replicate [upLowAt 400].length (LOW, false, false)) :=
  ⟨by decide,
   press_edge_once Channel.up Buttons.init (upLowAt 100) (upLowAt 151)
     [upLowAt 120, upLowAt 150] [upLowAt 400] (by decide) (by decide) (by decide) (by decide)
     (by decide) (by decide) (by decide) (by decide)⟩

/-- C6 as stated fails at the boundary.  UP is stably released, then sampled pressed at
100 ms and again at 150 ms, so pressed for the 50 ms of the debounce window: the debounced
level is still released after both polls and `upPressed` returns false both times. -/
theorem press_of_50ms_not_confirmed :
    (upLowAt 150).now - (upLowAt 100).now ≥ 50 ∧
    pollConsume Channel.up Buttons.init [upLowAt 100, upLowAt 150]
      = [(HIGH, false, false), (HIGH, false, false)] := by
  decide

/-! ### Bounce rejection -/

theorem pollEnd_snoc (b : Buttons) (xs : List Sample) (y : Sample) :
    pollEnd b (xs ++ [y]) = (pollEnd b xs).poll y := by
  simp only [pollEnd, List.foldl_append, List.foldl_cons, List.foldl_nil]

/-- Whenever the last raw level differs from the debounced one, the debounce timer holds
the time of an earlier poll since which every sample was at that raw level. -/
theorem pending_since (ch : Channel) (b : Buttons)
    (hls : (b.chan ch).last = (b.chan ch).stable) (xs : List Sample) :
    ((pollEnd b xs).chan ch).last ≠ ((pollEnd b xs).chan ch).stable →
    ∃ pre z post, xs = pre ++ z :: post ∧
      ((pollEnd b xs).chan ch).debounceTime = z.now % 4294967296 ∧
      z.reading ch = ((pollEnd b xs).chan ch).last ∧
      ∀ x ∈ post, x.reading ch = ((pollEnd b xs).chan ch).last := by
  induction xs using List.reverseRecOn with
  | nil => intro h; exact absurd hls h
  | append_singleton xs y ih =>
    intro hne
    rw [pollEnd_snoc] at hne ⊢
    have hp := chan_poll ch (pollEnd b xs) y
    by_cases hr : y.reading ch = ((pollEnd b xs).chan ch).last
    · by_cases hd : subUL (y.now % 4294967296) ((pollEnd b xs).chan ch).debounceTime ≤ 50
      · rw [processButton_wait _ _ _ hr hd] at hp
        rw [hp] at hne ⊢
        simp only at hne ⊢
        obtain ⟨pre, z, post, e1, e2, e3, e4⟩ := ih (by rw [← hr]; exact hne)
        refine ⟨pre, z, post ++ [y], by rw [e1]; simp, e2, by rw [e3, hr], ?_⟩
        intro x hx
        rcases List.mem_append.mp hx with h | h
        · rw [e4 x h, hr]
        · rw [List.mem_singleton.mp h]
      · by_cases hs : y.reading ch = ((pollEnd b xs).chan ch).stable
        · obtain ⟨p1, -, p3⟩ := processButton_same ((pollEnd b xs).chan ch) (y.reading ch)
            (y.now % 4294967296) hs
          rw [← hp] at p1 p3
          exact absurd (by rw [p1, p3, hs]) hne
        · rw [processButton_confirm _ _ _ hr hs (by omega)] at hp
          rw [hp] at hne
          exact absurd rfl hne
    · rw [processButton_change _ _ _ hr] at hp
      rw [hp]
      exact ⟨xs, y, [], rfl, rfl, rfl, fun x hx => absurd hx (List.not_mem_nil x)⟩

/-- A poll that changes the debounced level was preceded by more than 50 ms of samples at
the new level. -/
theorem change_needs_window (ch : Channel) (b : Buttons)
    (hls : (b.chan ch).last = (b.chan ch).stable) (xs : List Sample) (y : Sample)
    (hmono : ∀ x ∈ xs, x.now ≤ y.now)
    (hchg : ((pollEnd b (xs ++ [y])).chan ch).stable ≠ ((pollEnd b xs).chan ch).stable) :
    ∃ pre z post, xs = pre ++ z :: post ∧ z.now + 50 < y.now ∧
      z.reading ch = y.reading ch ∧ (∀ x ∈ post, x.reading ch = y.reading ch) ∧
      ((pollEnd b (xs ++ [y])).chan ch).stable = y.reading ch := by
  rw [pollEnd_snoc] at hchg ⊢
  have hp := chan_poll ch (pollEnd b xs) y
  by_cases hr : y.reading ch = ((pollEnd b xs).chan ch).last
  · by_cases hd : subUL (y.now % 4294967296) ((pollEnd b xs).chan ch).debounceTime ≤ 50
    · rw [processButton_wait _ _ _ hr hd] at hp
      rw [hp] at hchg
      exact absurd rfl hchg
    · by_cases hs : y.reading ch = ((pollEnd b xs).chan ch).stable
      · obtain ⟨p1, -, -⟩ := processButton_same ((pollEnd b xs).chan ch) (y.reading ch)
          (y.now % 4294967296) hs
        rw [← hp] at p1
        exact absurd p1 hchg
      · obtain ⟨pre, z, post, e1, e2, e3, e4⟩ := pending_since ch b hls xs
          (by rw [← hr]; exact hs)
        rw [processButton_confirm _ _ _ hr hs (by omega)] at hp
        have hz : z.now ≤ y.now := hmono z (by rw [e1]; simp)
        rw [e2, subUL_mod _ _ hz] at hd
        refine ⟨pre, z, post, e1, ?_, by rw [e3, hr], fun x hx => by rw [e4 x hx, hr],
          by rw [hp]⟩
        have := Nat.mod_le (y.now - z.now) 4294967296
        omega
  · rw [processButton_change _ _ _ hr] at hp
    rw [hp] at hchg
    exact absurd rfl hchg

/-- C7. From a state with `last = stable`: a run of samples at one level different from
the debounced level, lasting 50 ms or less from the poll `x0` that first saw it, leaves
the debounced level as it was and the press-edge flag false after every poll (and the
consume query false).  And whenever a poll `y` of a sequence with non-decreasing
timestamps changes the debounced level, the new level is the sampled one and every sample
since an earlier poll `z`, more than 50 ms before `y`, was at that level. -/
theorem bounce_rejected (ch : Channel) (b : Buttons) (x0 : Sample) (rest : List Sample)
    (hls : (b.chan ch).last = (b.chan ch).stable)
    (hv : x0.reading ch ≠ (b.chan ch).stable)
    (hrest : ∀ x ∈ rest, x.reading ch = x0.reading ch ∧ x0.now ≤ x.now ∧ x.now ≤ x0.now + 50) :
    chanTrace ch b (x0 :: rest)
      = List.replicate (rest.length + 1) ((b.chan ch).stable, false) ∧
    pollConsume ch b (x0 :: rest)
      = List.replicate (rest.length + 1) ((b.chan ch).stable, false, false) ∧
    (∀ (xs : List Sample) (y : Sample), (∀ x ∈ xs, x.now ≤ y.now) →
      ((pollEnd b (xs ++ [y])).chan ch).stable ≠ ((pollEnd b xs).chan ch).stable →
      ∃ pre z post, xs = pre ++ z :: post ∧ z.now + 50 < y.now ∧
        z.reading ch = y.reading ch ∧ (∀ x ∈ post, x.reading ch = y.reading ch) ∧
        ((pollEnd b (xs ++ [y])).chan ch).stable = y.reading ch) := by
  obtain ⟨r1, -, -, -⟩ := short_run ch b x0 rest hls hv hrest
  refine ⟨r1, ?_, fun xs y hm hc => change_needs_window ch b hls xs y hm hc⟩
  rw [pollConsume_of_trace, r1]
  simp only [List.map_replicate]

/-- C7 on a fresh `Buttons` object: UP sampled pressed at 100, 120 and 150 ms leaves it
released; and the change of level at 151 ms after a sample at 100 ms has its window. -/
theorem bounce_rejected_witness :
    ((Buttons.init.chan Channel.up).last = (Buttons.init.chan Channel.up).stable ∧
     (upLowAt 100).reading Channel.up ≠ (Buttons.init.chan Channel.up).stable ∧
     (∀ x ∈ [upLowAt 120, upLowAt 150], x.reading Channel.up = (upLowAt 100).reading Channel.up ∧
        (upLowAt 100).now ≤ x.now ∧ x.now ≤ (upLowAt 100).now + 50)) ∧
    (chanTrace Channel.up Buttons.init (upLowAt 100 :: [upLowAt 120, upLowAt 150])
      = List.replicate ([upLowAt 120, upLowAt 150].length + 1)
          ((Buttons.init.chan Channel.up).stable, false) ∧
     pollConsume Channel.up Buttons.init (upLowAt 100 :: [upLowAt 120, upLowAt 150])
      = List.replicate ([upLowAt 120, upLowAt 150].length + 1)
          ((Buttons.init.chan Channel.up).stable, false, false)) ∧
    ((∀ x ∈ [upLowAt 100], x.now ≤ (upLowAt 151).now) ∧
     ((pollEnd Buttons.init ([upLowAt 100] ++ [upLowAt 151])).chan Channel.up).stable
        ≠ ((pollEnd Buttons.init [upLowAt 100]).chan Channel.up).stable) ∧
    (∃ pre z post, [upLowAt 100] = pre ++ z :: post ∧ z.now + 50 < (upLowAt 151).now ∧
        z.reading Channel.up = (upLowAt 151).reading Channel.up ∧
        (∀ x ∈ post, x.reading Channel.up = (upLowAt 151).reading Channel.up) ∧
        ((pollEnd Buttons.init ([upLowAt 100] ++ [upLowAt 151])).chan Channel.up).stable
          = (upLowAt 151).reading Channel.up) :=
  ⟨by decide,
   ⟨(bounce_rejected Channel.up Buttons.init (upLowAt 100) [upLowAt 120, upLowAt 150]
      (by decide) (by decide) (by decide)).1,
    (bounce_rejected Channel.up Buttons.init (upLowAt 100) [upLowAt 120, upLowAt 150]
      (by decide) (by decide) (by decide)).2.1⟩,
   by decide,
   (bounce_rejected Channel.up Buttons.init (upLowAt 100) [upLowAt 120, upLowAt 150]
      (by decide) (by decide) (by decide)).2.2 [upLowAt 100] (upLowAt 151)
      (by decide) (by decide)⟩

/-! ### Long press -/

/-- The long-press variables after a poll that leaves SELECT debounced pressed. -/
theorem poll_long_fields (b : Buttons) (x : Sample) (h : (b.poll x).stableSel = LOW) :
    (b.poll x).selPressStart
      = (if b.selPressStart = 0 then x.now % 4294967296 else b.selPressStart) ∧
    (b.poll x).longSelTriggered
      = (b.longSelTriggered ||
          decide (b.selPressStart ≠ 0 ∧
            subUL (x.now % 4294967296) b.selPressStart > LONG_PRESS_MS)) ∧
    (b.poll x).longSel
      = (b.longSel ||
          decide (b.selPressStart ≠ 0 ∧
            subUL (x.now % 4294967296) b.selPressStart > LONG_PRESS_MS ∧
            b.longSelTriggered = false)) := by
  simp only [Buttons.poll] at h ⊢
  split_ifs at h ⊢ <;> simp_all

theorem pollSelLong_cons (b : Buttons) (x : Sample) (xs : List Sample) :
    pollSelLong b (x :: xs)
      = ((b.poll x).stableSel, (b.poll x).longSel) :: pollSelLong (b.poll x).selLong.2 xs := rfl

theorem pollSelLong_append (xs ys : List Sample) : ∀ b : Buttons,
    pollSelLong b (xs ++ ys) = pollSelLong b xs ++ pollSelLong (pollSelLongEnd b xs) ys := by
  induction xs with
  | nil => intro b; rfl
  | cons x rest ih =>
    intro b
    rw [List.cons_append, pollSelLong_cons, pollSelLong_cons, ih]
    rfl

/-- Held and timed from `T`, not yet fired: polls up to `T + 600` fire nothing. -/
theorem long_waiting (T : Nat) : ∀ (xs : List Sample) (b : Buttons),
    b.selPressStart = T % 4294967296 → T % 4294967296 ≠ 0 →
    b.longSelTriggered = false → b.longSel = false →
    (∀ x ∈ xs, T ≤ x.now ∧ x.now ≤ T + LONG_PRESS_MS) →
    (∀ e ∈ pollSelLong b xs, e.1 = LOW) →
    (pollSelLong b xs).map Prod.snd = List.replicate xs.length false ∧
    (pollSelLongEnd b xs).selPressStart = T % 4294967296 ∧
    (pollSelLongEnd b xs).longSelTriggered = false ∧ (pollSelLongEnd b xs).longSel = false := by
  intro xs
  induction xs with
  | nil => intro b h1 _ h2 h3 _ _; exact ⟨rfl, h1, h2, h3⟩
  | cons x rest ih =>
    intro b h1 hT0 h2 h3 hx hheld
    rw [pollSelLong_cons] at hheld
    have hlow : (b.poll x).stableSel = LOW := hheld _ (List.mem_cons_self _ _)
    obtain ⟨ht0, ht1⟩ := hx x (List.mem_cons_self x rest)
    obtain ⟨f1, f2, f3⟩ := poll_long_fields b x hlow
    have hsub : ¬ (subUL (x.now % 4294967296) (T % 4294967296) > LONG_PRESS_MS) := by
      rw [subUL_mod _ _ ht0]
      have := Nat.mod_le (x.now - T) 4294967296
      simp only [LONG_PRESS_MS] at ht1 ⊢
      omega
    rw [h1, if_neg hT0] at f1
    rw [h1, h2] at f2
    rw [h1, h3] at f3
    simp only [hsub, false_and, and_false, decide_False, Bool.or_false] at f2 f3
    obtain ⟨i1, i2, i3, i4⟩ := ih (b.poll x).selLong.2 f1 hT0 f2 rfl
      (fun z hz => hx z (List.mem_cons_of_mem x hz))
      (fun e he => hheld e (List.mem_cons_of_mem _ he))
    rw [pollSelLong_cons, List.map_cons, i1, f3]
    exact ⟨by simp only [List.length_cons, List.replicate_succ], i2, i3, i4⟩

/-- Held and already fired: further polls fire nothing. -/
theorem long_fired : ∀ (xs : List Sample) (b : Buttons),
    b.selPressStart ≠ 0 → b.longSelTriggered = true → b.longSel = false →
    (∀ e ∈ pollSelLong b xs, e.1 = LOW) →
    (pollSelLong b xs).map Prod.snd = List.replicate xs.length false := by
  intro xs
  induction xs with
  | nil => intro b _ _ _ _; rfl
  | cons x rest ih =>
    intro b h1 h2 h3 hheld
    rw [pollSelLong_cons] at hheld
    have hlow : (b.poll x).stableSel = LOW := hheld _ (List.mem_cons_self _ _)
    obtain ⟨f1, f2, f3⟩ := poll_long_fields b x hlow
    rw [if_neg h1] at f1
    rw [h2] at f2
    rw [h2, h3] at f3
    simp only [Bool.true_or, and_false, decide_False, Bool.or_false, Bool.true_eq_false] at f2 f3
    have i1 := ih (b.poll x).selLong.2 (by rw [← f1] at h1; exact h1) f2 rfl
      (fun e he => hheld e (List.mem_cons_of_mem _ he))
    rw [pollSelLong_cons, List.map_cons, i1, f3]
    simp only [List.length_cons, List.replicate_succ]

/-- A hold whose first confirmed-pressed poll reads a time other than 0.  SELECT's
long-press variables are reset (as construction and every poll with SELECT released leave
them); the poll `x1`, at a time other than 0, is the first to leave SELECT debounced
pressed, and it stays so after every later poll; the polls `pre` come within 600 ms of
`x1`, the poll `y` more than 600 ms after it, the polls `post` follow.  Then `selLong`,
called after each poll, returns true after `y` and false after every other poll, and a hold
that ends with `pre` gets only false. -/
theorem long_press_once (b : Buttons) (x1 y : Sample) (pre post : List Sample)
    (h0 : b.selPressStart = 0) (ht : b.longSelTriggered = false) (hl : b.longSel = false)
    (hT1 : 0 < x1.now)
    (hpre : ∀ x ∈ pre, x1.now ≤ x.now ∧ x.now ≤ x1.now + LONG_PRESS_MS)
    (hy : x1.now + LONG_PRESS_MS < y.now) (hyM : y.now < 4294967296)
    (hheld : ∀ e ∈ pollSelLong b (x1 :: (pre ++ y :: post)), e.1 = LOW) :
    (pollSelLong b (x1 :: (pre ++ y :: post))).map Prod.snd
      = List.replicate (pre.length + 1) false ++ true :: List.replicate post.length false ∧
    (pollSelLong b (x1 :: pre)).map Prod.snd = List.replicate (pre.length + 1) false := by
  have hsplit : pollSelLong b (x1 :: (pre ++ y :: post))
      = pollSelLong b (x1 :: pre) ++ pollSelLong (pollSelLongEnd b (x1 :: pre)) (y :: post) := by
    rw [← List.cons_append, pollSelLong_append]
  have hheld1 : ∀ e ∈ pollSelLong b (x1 :: pre), e.1 = LOW :=
    fun e he => hheld e (by rw [hsplit]; exact List.mem_append_left _ he)
  have hheld2 : ∀ e ∈ pollSelLong (pollSelLongEnd b (x1 :: pre)) (y :: post), e.1 = LOW :=
    fun e he => hheld e (by rw [hsplit]; exact List.mem_append_right _ he)
  have hT0 : x1.now % 4294967296 ≠ 0 := by omega
  -- the poll `x1` starts the timing
  rw [pollSelLong_cons] at hheld1
  have hlow1 : (b.poll x1).stableSel = LOW := hheld1 _ (List.mem_cons_self _ _)
  obtain ⟨f1, f2, f3⟩ := poll_long_fields b x1 hlow1
  rw [h0, if_pos rfl] at f1
  rw [h0, ht] at f2
  rw [h0, hl] at f3
  simp only [ne_eq, not_true_eq_false, false_and, decide_False, Bool.or_false] at f2 f3
  -- the polls of `pre` wait
  obtain ⟨w1, w2, w3, w4⟩ := long_waiting x1.now pre (b.poll x1).selLong.2 f1 hT0 f2 rfl hpre
    (fun e he => hheld1 e (List.mem_cons_of_mem _ he))
  have hfirst : (pollSelLong b (x1 :: pre)).map Prod.snd
      = List.replicate (pre.length + 1) false := by
    rw [pollSelLong_cons, List.map_cons, w1, f3]
    simp only [List.replicate_succ]
  refine ⟨?_, hfirst⟩
  -- the poll `y` fires
  have hend : pollSelLongEnd b (x1 :: pre) = pollSelLongEnd (b.poll x1).selLong.2 pre := rfl
  rw [hend] at hsplit hheld2
  rw [pollSelLong_cons] at hheld2
  have hlow2 := hheld2 _ (List.mem_cons_self _ _)
  obtain ⟨g1, g2, g3⟩ := poll_long_fields _ y hlow2
  have hsub : subUL (y.now % 4294967296) (x1.now % 4294967296) > LONG_PRESS_MS := by
    rw [subUL_mod _ _ (by omega)]
    simp only [LONG_PRESS_MS] at hy ⊢
    omega
  rw [w2, if_neg hT0] at g1
  rw [w2, w3] at g2
  rw [w2, w4, w3] at g3
  simp only [ne_eq, hT0, not_false_eq_true, hsub, and_self, decide_True, Bool.or_true,
    Bool.false_or] at g2 g3
  have hrest := long_fired post ((pollSelLongEnd (b.poll x1).selLong.2 pre).poll y).selLong.2
    (by rw [← g1] at hT0; exact hT0) g2 rfl
    (fun e he => hheld2 e (List.mem_cons_of_mem _ he))
  rw [hsplit, List.map_append, hfirst, pollSelLong_cons, List.map_cons, hrest, g3]

/-- A hold from power-up, where `begin ()` has read SELECT pressed after its 50 ms delay:
SELECT sampled pressed at 60, 300, 660, 661 and 2000 ms. -/
theorem long_press_once_witness :
    (selHeldAtBoot.selPressStart = 0 ∧ selHeldAtBoot.longSelTriggered = false ∧
      selHeldAtBoot.longSel = false ∧ 0 < (selLowAt 60).now ∧
      (∀ x ∈ [selLowAt 300, selLowAt 660],
        (selLowAt 60).now ≤ x.now ∧ x.now ≤ (selLowAt 60).now + LONG_PRESS_MS) ∧
      (selLowAt 60).now + LONG_PRESS_MS < (selLowAt 661).now ∧
      (selLowAt 661).now < 4294967296 ∧
      (∀ e ∈ pollSelLong selHeldAtBoot
          (selLowAt 60 :: ([selLowAt 300, selLowAt 660] ++ selLowAt 661 :: [selLowAt 2000])),
        e.1 = LOW)) ∧
    ((pollSelLong selHeldAtBoot
        (selLowAt 60 :: ([selLowAt 300, selLowAt 660] ++ selLowAt 661 :: [selLowAt 2000]))).map
        Prod.snd
      = List.replicate ([selLowAt 300, selLowAt 660].length + 1) false ++
          true :: List.replicate [selLowAt 2000].length false ∧
     (pollSelLong selHeldAtBoot (selLowAt 60 :: [selLowAt 300, selLowAt 660])).map Prod.snd
      = List.replicate ([selLowAt 300, selLowAt 660].length + 1) false) :=
  ⟨by decide,
   long_press_once selHeldAtBoot (selLowAt 60) (selLowAt 661) [selLowAt 300, selLowAt 660]
     [selLowAt 2000] (by decide) (by decide) (by decide) (by decide) (by decide) (by decide)
     (by decide) (by decide)⟩

/-- C8 against the code where the 32-bit `millis ()` counter wraps.  After `begin ()` with
no button pressed, SELECT is released at the poll 296 ms before the wrap, first sampled
pressed 60 ms before the wrap, and sampled pressed at every later poll: at 0, 200, 400,
601, 800 and 801 ms after the wrap.  The poll reading 0 is the first to leave SELECT
debounced pressed, and the poll at 601 is the first more than 600 ms after it, so C8 has
`selLong` return true after that poll and after no other.  The code returns false after the
poll at 601 and true only after the poll at 801: the poll at 0 stores the time 0 in
`selPressStart`, which is also that variable's "not timing" value, so the poll at 200
starts the timing anew. -/
theorem long_press_late_at_wrap :
    (selLowAt 0).now + LONG_PRESS_MS < (selLowAt 601).now ∧
    (selLowAt 400).now ≤ (selLowAt 0).now + LONG_PRESS_MS ∧
    pollSelLong (Buttons.init.begin HIGH HIGH HIGH)
        [allHighAt 4294967000, selLowAt 4294967236, selLowAt 0, selLowAt 200, selLowAt 400,
         selLowAt 601, selLowAt 800, selLowAt 801]
      = [(HIGH, false), (HIGH, false), (LOW, false), (LOW, false), (LOW, false),
         (LOW, false), (LOW, false), (LOW, true)] ∧
    (pollSelLongEnd (Buttons.init.begin HIGH HIGH HIGH)
        [allHighAt 4294967000, selLowAt 4294967236, selLowAt 0]).selPressStart = 0 := by
  decide

/-! ### Defaults of `load` -/

/-- C9, for stored names that fit the array.  For `i < count`, `load (i)` succeeds whatever
keys of slot `i` are present.  A field whose key is absent gets its default: name
"Unnamed", `hasBrake`, `hasFG`, `hasLD`, `hasStop`, `hasEnable` false, `ldActiveLow`,
`stopActiveHigh`, `enableActiveHigh` true, `ppr` 6, `maxClockHz` 20000; with all eleven
absent the result is what `setDefaults` assigns.  A field whose key holds a value of its
type gets that value, the name when the stored text has at most 19 characters, which is
what `char name[20]` holds together with its NUL: the array then holds the stored text and
a C-string read of it gives the stored text.  Nothing is said of a longer stored name. -/
theorem load_defaults (s : ProfileStore) (i : Nat) (m : MotorProfile) (hi : i < s.count) :
    (s.load (i : Int) m).1 = true ∧
    (s.prefs (key (i : Int) "name") = none →
      (s.load (i : Int) m).2.name = "Unnamed") ∧
    (∀ t : String, s.prefs (key (i : Int) "name") = some (Val.str t) → t.length ≤ 19 →
      (s.load (i : Int) m).2.name = t ∧ (s.load (i : Int) m).2.nameText = t) ∧
    (s.prefs (key (i : Int) "br") = none →
      (s.load (i : Int) m).2.hasBrake = false) ∧
    (∀ v : Bool, s.prefs (key (i : Int) "br") = some (Val.bool v) →
      (s.load (i : Int) m).2.hasBrake = v) ∧
    (s.prefs (key (i : Int) "fg") = none →
      (s.load (i : Int) m).2.hasFG = false) ∧
    (∀ v : Bool, s.prefs (key (i : Int) "fg") = some (Val.bool v) →
      (s.load (i : Int) m).2.hasFG = v) ∧
    (s.prefs (key (i : Int) "ld") = none →
      (s.load (i : Int) m).2.hasLD = false) ∧
    (∀ v : Bool, s.prefs (key (i : Int) "ld") = some (Val.bool v) →
      (s.load (i : Int) m).2.hasLD = v) ∧
    (s.prefs (key (i : Int) "lda") = none →
      (s.load (i : Int) m).2.ldActiveLow = true) ∧
    (∀ v : Bool, s.prefs (key (i : Int) "lda") = some (Val.bool v) →
      (s.load (i : Int) m).2.ldActiveLow = v) ∧
    (s.prefs (key (i : Int) "st") = none →
      (s.load (i : Int) m).2.hasStop = false) ∧
    (∀ v : Bool, s.prefs (key (i : Int) "st") = some (Val.bool v) →
      (s.load (i : Int) m).2.hasStop = v) ∧
    (s.prefs (key (i : Int) "sta") = none →
      (s.load (i : Int) m).2.stopActiveHigh = true) ∧
    (∀ v : Bool, s.prefs (key (i : Int) "sta") = some (Val.bool v) →
      (s.load (i : Int) m).2.stopActiveHigh = v) ∧
    (s.prefs (key (i : Int) "en") = none →
      (s.load (i : Int) m).2.hasEnable = false) ∧
    (∀ v : Bool, s.prefs (key (i : Int) "en") = some (Val.bool v) →
      (s.load (i : Int) m).2.hasEnable = v) ∧
    (s.prefs (key (i : Int) "ena") = none →
      (s.load (i : Int) m).2.enableActiveHigh = true) ∧
    (∀ v : Bool, s.prefs (key (i : Int) "ena") = some (Val.bool v) →
      (s.load (i : Int) m).2.enableActiveHigh = v) ∧
    (s.prefs (key (i : Int) "ppr") = none →
      (s.load (i : Int) m).2.ppr = 6) ∧
    (∀ n : Nat, s.prefs (key (i : Int) "ppr") = some (Val.u8 n) →
      (s.load (i : Int) m).2.ppr = n % 256) ∧
    (s.prefs (key (i : Int) "max") = none →
      (s.load (i : Int) m).2.maxClockHz = 20000) ∧
    (∀ n : Nat, s.prefs (key (i : Int) "max") = some (Val.u32 n) →
      (s.load (i : Int) m).2.maxClockHz = n % 4294967296) ∧
    ((∀ f ∈ sfx, s.prefs (key (i : Int) f) = none) →
      ∀ d : MotorProfile, (s.load (i : Int) m).2 = d.setDefaults) := by
  rw [load_eq s _ m (by omega) (by omega)]
  simp only [readProfile, true_and]
  refine ⟨?_, ?_, ?_, ?_, ?_, ?_, ?_, ?_, ?_, ?_, ?_, ?_, ?_, ?_, ?_, ?_, ?_, ?_, ?_, ?_, ?_,
    ?_, ?_⟩
  · intro h; simp only [Prefs.getString, h]; rfl
  · intro t h ht
    have hn : strncpy t 20 = t := strncpy_short t 20 (by omega)
    simp only [Prefs.getString, h, hn, true_and]
    exact nameText_short _ ht
  · intro h; simp only [Prefs.getBool, h]
  · intro v h; simp only [Prefs.getBool, h]
  · intro h; simp only [Prefs.getBool, h]
  · intro v h; simp only [Prefs.getBool, h]
  · intro h; simp only [Prefs.getBool, h]
  · intro v h; simp only [Prefs.getBool, h]
  · intro h; simp only [Prefs.getBool, h]
  · intro v h; simp only [Prefs.getBool, h]
  · intro h; simp only [Prefs.getBool, h]
  · intro v h; simp only [Prefs.getBool, h]
  · intro h; simp only [Prefs.getBool, h]
  · intro v h; simp only [Prefs.getBool, h]
  · intro h; simp only [Prefs.getBool, h]
  · intro v h; simp only [Prefs.getBool, h]
  · intro h; simp only [Prefs.getBool, h]
  · intro v h; simp only [Prefs.getBool, h]
  · intro h; simp only [Prefs.getUChar, h]
  · intro n h; simp only [Prefs.getUChar, h]
  · intro h; simp only [Prefs.getUInt, h]
  · intro n h; simp only [Prefs.getUInt, h]
  · intro h d
    simp only [Prefs.getString, Prefs.getBool, Prefs.getUChar, Prefs.getUInt,
      h "name" (by decide), h "br" (by decide), h "fg" (by decide), h "ld" (by decide),
      h "lda" (by decide), h "st" (by decide), h "sta" (by decide), h "en" (by decide),
      h "ena" (by decide), h "ppr" (by decide), h "max" (by decide), MotorProfile.setDefaults]

/-- C9 on a store of two slots where slot 1 has three of its keys written, the name "Fan"
among them. -/
theorem load_defaults_witness :
    (1 < sparseStore.count) ∧
    ((sparseStore.load ((1 : Nat) : Int) zeroed).1 = true ∧
     (sparseStore.prefs (key ((1 : Nat) : Int) "name") = none →
       (sparseStore.load ((1 : Nat) : Int) zeroed).2.name = "Unnamed") ∧
     (∀ t : String, sparseStore.prefs (key ((1 : Nat) : Int) "name") = some (Val.str t) →
       t.length ≤ 19 →
       (sparseStore.load ((1 : Nat) : Int) zeroed).2.name = t ∧
       (sparseStore.load ((1 : Nat) : Int) zeroed).2.nameText = t) ∧
     (sparseStore.prefs (key ((1 : Nat) : Int) "br") = none →
       (sparseStore.load ((1 : Nat) : Int) zeroed).2.hasBrake = false) ∧
     (∀ v : Bool, sparseStore.prefs (key ((1 : Nat) : Int) "br") = some (Val.bool v) →
       (sparseStore.load ((1 : Nat) : Int) zeroed).2.hasBrake = v) ∧
     (sparseStore.prefs (key ((1 : Nat) : Int) "fg") = none →
       (sparseStore.load ((1 : Nat) : Int) zeroed).2.hasFG = false) ∧
     (∀ v : Bool, sparseStore.prefs (key ((1 : Nat) : Int) "fg") = some (Val.bool v) →
       (sparseStore.load ((1 : Nat) : Int) zeroed).2.hasFG = v) ∧
     (sparseStore.prefs (key ((1 : Nat) : Int) "ld") = none →
       (sparseStore.load ((1 : Nat) : Int) zeroed).2.hasLD = false) ∧
     (∀ v : Bool, sparseStore.prefs (key ((1 : Nat) : Int) "ld") = some (Val.bool v) →
       (sparseStore.load ((1 : Nat) : Int) zeroed).2.hasLD = v) ∧
     (sparseStore.prefs (key ((1 : Nat) : Int) "lda") = none →
       (sparseStore.load ((1 : Nat) : Int) zeroed).2.ldActiveLow = true) ∧
     (∀ v : Bool, sparseStore.prefs (key ((1 : Nat) : Int) "lda") = some (Val.bool v) →
       (sparseStore.load ((1 : Nat) : Int) zeroed).2.ldActiveLow = v) ∧
     (sparseStore.prefs (key ((1 : Nat) : Int) "st") = none →
       (sparseStore.load ((1 : Nat) : Int) zeroed).2.hasStop = false) ∧
     (∀ v : Bool, sparseStore.prefs (key ((1 : Nat) : Int) "st") = some (Val.bool v) →
       (sparseStore.load ((1 : Nat) : Int) zeroed).2.hasStop = v) ∧
     (sparseStore.prefs (key ((1 : Nat) : Int) "sta") = none →
       (sparseStore.load ((1 : Nat) : Int) zeroed).2.stopActiveHigh = true) ∧
     (∀ v : Bool, sparseStore.prefs (key ((1 : Nat) : Int) "sta") = some (Val.bool v) →
       (sparseStore.load ((1 : Nat) : Int) zeroed).2.stopActiveHigh = v) ∧
     (sparseStore.prefs (key ((1 : Nat) : Int) "en") = none →
       (sparseStore.load ((1 : Nat) : Int) zeroed).2.hasEnable = false) ∧
     (∀ v : Bool, sparseStore.prefs (key ((1 : Nat) : Int) "en") = some (Val.bool v) →
       (sparseStore.load ((1 : Nat) : Int) zeroed).2.hasEnable = v) ∧
     (sparseStore.prefs (key ((1 : Nat) : Int) "ena") = none →
       (sparseStore.load ((1 : Nat) : Int) zeroed).2.enableActiveHigh = true) ∧
     (∀ v : Bool, sparseStore.prefs (key ((1 : Nat) : Int) "ena") = some (Val.bool v) →
       (sparseStore.load ((1 : Nat) : Int) zeroed).2.enableActiveHigh = v) ∧
     (sparseStore.prefs (key ((1 : Nat) : Int) "ppr") = none →
       (sparseStore.load ((1 : Nat) : Int) zeroed).2.ppr = 6) ∧
     (∀ n : Nat, sparseStore.prefs (key ((1 : Nat) : Int) "ppr") = some (Val.u8 n) →
       (sparseStore.load ((1 : Nat) : Int) zeroed).2.ppr = n % 256) ∧
     (sparseStore.prefs (key ((1 : Nat) : Int) "max") = none →
       (sparseStore.load ((1 : Nat) : Int) zeroed).2.maxClockHz = 20000) ∧
     (∀ n : Nat, sparseStore.prefs (key ((1 : Nat) : Int) "max") = some (Val.u32 n) →
       (sparseStore.load ((1 : Nat) : Int) zeroed).2.maxClockHz = n % 4294967296) ∧
     ((∀ f ∈ sfx, sparseStore.prefs (key ((1 : Nat) : Int) f) = none) →
       ∀ d : MotorProfile, (sparseStore.load ((1 : Nat) : Int) zeroed).2 = d.setDefaults)) :=
  ⟨by decide, load_defaults sparseStore 1 zeroed (by decide)⟩

/-- C9 as stated fails for the name.  The key `"m0_name"` is present with a text of 26
characters, more than `char name[20]` has room for; `load (0)` succeeds, and neither the
content of the array nor the text a C-string read of it gives is the stored value. -/
theorem load_long_name_not_stored :
    longNameStore.prefs (key 0 "name") = some (Val.str "ABCDEFGHIJKLMNOPQRSTUVWXYZ") ∧
    (longNameStore.load 0 zeroed).1 = true ∧
    (longNameStore.load 0 zeroed).2.name ≠ "ABCDEFGHIJKLMNOPQRSTUVWXYZ" ∧
    (longNameStore.load 0 zeroed).2.nameText ≠ "ABCDEFGHIJKLMNOPQRSTUVWXYZ" := by
  decide

/-! ### Key encoding of `save` -/

theorem key_text_literal (i : Nat) (f : String) :
    "m" ++ toString i ++ ("_" ++ f) = "m" ++ toString i ++ "_" ++ f := by
  rw [String.append_assoc ("m" ++ toString i) "_" f]

/-- The loop of `remove` never changes `count` or `activeIndex`, on any store. -/
theorem removeLoop_keeps (fuel : Nat) : ∀ (s : ProfileStore) (i : Int) (tmp : MotorProfile),
    (removeLoop fuel s i tmp).1.count = s.count ∧
    (removeLoop fuel s i tmp).1.activeIndex = s.activeIndex := by
  induction fuel with
  | zero => intro s i tmp; exact ⟨rfl, rfl⟩
  | succ fuel ih =>
    intro s i tmp
    by_cases hc : i < (s.count : Int) - 1
    · simp only [removeLoop, if_pos hc]
      obtain ⟨h1, h2⟩ := save_count_of_lt s i (s.load (i + 1) tmp).2 (by omega)
      obtain ⟨i1, i2⟩ := ih (s.save i (s.load (i + 1) tmp).2).2 (i + 1) (s.load (i + 1) tmp).2
      exact ⟨by rw [i1, h1], by rw [i2, h2]⟩
    · simp only [removeLoop, if_neg hc]
      exact ⟨trivial, trivial⟩

/-- The store an accepted `remove` leaves, in terms of the store after the shifting loop. -/
theorem remove_valid (s : ProfileStore) (idx : Int) (tmp : MotorProfile)
    (h0 : 0 ≤ idx) (h1 : idx < s.count) :
    s.remove idx tmp
      = if s.activeIndex ≥ (s.count + 255) % 256 then
          { prefs := ((clearTail (removeLoop s.count s idx tmp).1.prefs
                        ((s.count : Int) - 1)).putUChar "count" ((s.count + 255) % 256)).putUChar
                      "active" (if (s.count + 255) % 256 > 0 then 0 else 255)
            count := (s.count + 255) % 256
            activeIndex := if (s.count + 255) % 256 > 0 then 0 else 255 }
        else
          { prefs := (clearTail (removeLoop s.count s idx tmp).1.prefs
                        ((s.count : Int) - 1)).putUChar "count" ((s.count + 255) % 256)
            count := (s.count + 255) % 256
            activeIndex := s.activeIndex } := by
  have h : ¬ (idx < 0 ∨ idx ≥ s.count) := by omega
  obtain ⟨hc, ha⟩ := removeLoop_keeps s.count s idx tmp
  simp only [remove, if_neg h, hc, ha]

theorem key_head (idx : Int) (f : String) :
    ∃ rest : List Char, (key idx f).data = 'm' :: rest := by
  refine ⟨List.take 14 ((toString idx).data ++ ("_" : String).data ++ f.data), ?_⟩
  simp only [key, String.data_append]
  rfl

theorem key_ne_count_any (idx : Int) (f : String) : key idx f ≠ "count" := by
  intro h
  obtain ⟨rest, hr⟩ := key_head idx f
  rw [h] at hr
  have : ("count" : String).data = ['c', 'o', 'u', 'n', 't'] := rfl
  rw [this] at hr
  simp at hr

theorem key_ne_active_any (idx : Int) (f : String) : key idx f ≠ "active" := by
  intro h
  obtain ⟨rest, hr⟩ := key_head idx f
  rw [h] at hr
  have : ("active" : String).data = ['a', 'c', 't', 'i', 'v', 'e'] := rfl
  rw [this] at hr
  simp at hr

/-- After an accepted `remove`, `"count"` holds the new count and every key of the old
last slot is gone. -/
theorem remove_tail (s : ProfileStore) (idx : Int) (tmp : MotorProfile)
    (h0 : 0 ≤ idx) (h1 : idx < s.count) :
    (s.remove idx tmp).prefs "count" = some (Val.u8 ((s.count + 255) % 256)) ∧
    ∀ f ∈ sfx, (s.remove idx tmp).prefs (key ((s.count : Int) - 1) f) = none := by
  have hca : ("count" : String) ≠ "active" := by decide
  rw [remove_valid s idx tmp h0 h1]
  split
  · refine ⟨?_, ?_⟩
    · dsimp only
      rw [Prefs.putUChar, Prefs.put_other _ _ _ _ hca, Prefs.putUChar, Prefs.put_same,
        Nat.mod_mod]
    · intro f hf
      dsimp only
      rw [Prefs.putUChar, Prefs.put_other _ _ _ _ (key_ne_active_any _ f), Prefs.putUChar,
        Prefs.put_other _ _ _ _ (key_ne_count_any _ f)]
      exact clearTail_at _ _ f hf
  · refine ⟨?_, ?_⟩
    · dsimp only
      rw [Prefs.putUChar, Prefs.put_same, Nat.mod_mod]
    · intro f hf
      dsimp only
      rw [Prefs.putUChar, Prefs.put_other _ _ _ _ (key_ne_count_any _ f)]
      exact clearTail_at _ _ f hf
/-! ### Removing the last record, clearing the tail -/

/-- C11. On a store with `count = 1` and `activeIndex = 0`, `remove (0)` leaves `count = 0`
and `activeIndex = 255`, the key `"active"` holds 255 (so a later `begin ()` reads 255), and
`loadActive ()` returns absent, leaving its output parameter alone. -/
theorem remove_last_record (s : ProfileStore) (tmp m : MotorProfile)
    (hc : s.count = 1) (ha : s.activeIndex = 0) :
    (s.remove 0 tmp).count = 0 ∧
    (s.remove 0 tmp).activeIndex = 255 ∧
    (s.remove 0 tmp).prefs "active" = some (Val.u8 255) ∧
    (ProfileStore.begin (s.remove 0 tmp).prefs).activeIndex = 255 ∧
    (s.remove 0 tmp).loadActive m = (false, m) := by
  have hge : s.activeIndex ≥ (s.count + 255) % 256 := by rw [hc, ha]
  have hv := remove_valid s 0 tmp (le_refl 0) (by rw [hc]; norm_num)
  rw [if_pos hge, hc] at hv
  have hact : (s.remove 0 tmp).prefs "active" = some (Val.u8 255) := by
    rw [hv]
    dsimp only
    rw [Prefs.putUChar, Prefs.put_same]
    rfl
  refine ⟨by rw [hv], by rw [hv]; rfl, hact, ?_, ?_⟩
  · simp only [ProfileStore.begin, Prefs.getUChar, hact]
  · have h0 : (s.remove 0 tmp).count = 0 := by rw [hv]
    simp only [loadActive, h0, true_or, if_true]

/-- C11 on the store holding the single profile "Solo". -/
theorem remove_last_record_witness :
    (soloStore.count = 1 ∧ soloStore.activeIndex = 0) ∧
    ((soloStore.remove 0 zeroed).count = 0 ∧
     (soloStore.remove 0 zeroed).activeIndex = 255 ∧
     (soloStore.remove 0 zeroed).prefs "active" = some (Val.u8 255) ∧
     (ProfileStore.begin (soloStore.remove 0 zeroed).prefs).activeIndex = 255 ∧
     (soloStore.remove 0 zeroed).loadActive pump = (false, pump)) :=
  ⟨by decide, remove_last_record soloStore zeroed pump (by decide) (by decide)⟩

theorem sfx_short (f : String) (hf : f ∈ sfx) : f.length ≤ 4 := by
  simp only [sfx, List.mem_cons, List.mem_singleton, List.not_mem_nil, or_false] at hf
  rcases hf with h | h | h | h | h | h | h | h | h | h | h <;> subst h <;> decide

set_option maxRecDepth 1000000 in
theorem toString_length_le (i : Nat) (hi : i < 256) : (toString i).length ≤ 3 := by
  revert i
  decide

/-- For a slot index below 256 and a suffix of at most 10 characters, `key` is the text
"m", the decimal index, "_" and the suffix, nothing being cut. -/
theorem key_text_any (i : Nat) (hi : i < 256) (f : String) (hf : f.length ≤ 10) :
    key (i : Int) f = "m" ++ toString i ++ "_" ++ f := by
  have hl := toString_length_le i hi
  have hi2 : toString (i : Int) = toString i := rfl
  apply String.ext
  simp only [key, hi2]
  apply List.take_of_length_le
  simp only [String.data_append, List.length_append, List.length_singleton]
  have h3 : (toString i).data.length ≤ 3 := hl
  have h4 : f.data.length ≤ 10 := hf
  omega

/-- C16. On a store of `N ≥ 1` profiles (`N` a `uint8_t`), after `remove (k)` with `k < N`
none of the eleven keys "m" + decimal `N - 1` + "_name", "_br", "_fg", "_ld", "_lda", "_st",
"_sta", "_en", "_ena", "_ppr", "_max" is present in the backing store, and `"count"` holds
the decremented count `N - 1`, which is also the in-memory count. -/
theorem remove_clears_tail (s : ProfileStore) (k : Nat) (tmp : MotorProfile)
    (hN : s.count < 256) (hk : k < s.count) :
    (s.remove (k : Int) tmp).prefs
        ("m" ++ toString (s.count - 1) ++ "_name") = none ∧
    (s.remove (k : Int) tmp).prefs
        ("m" ++ toString (s.count - 1) ++ "_br") = none ∧
    (s.remove (k : Int) tmp).prefs
        ("m" ++ toString (s.count - 1) ++ "_fg") = none ∧
    (s.remove (k : Int) tmp).prefs
        ("m" ++ toString (s.count - 1) ++ "_ld") = none ∧
    (s.remove (k : Int) tmp).prefs
        ("m" ++ toString (s.count - 1) ++ "_lda") = none ∧
    (s.remove (k : Int) tmp).prefs
        ("m" ++ toString (s.count - 1) ++ "_st") = none ∧
    (s.remove (k : Int) tmp).prefs
        ("m" ++ toString (s.count - 1) ++ "_sta") = none ∧
    (s.remove (k : Int) tmp).prefs
        ("m" ++ toString (s.count - 1) ++ "_en") = none ∧
    (s.remove (k : Int) tmp).prefs
        ("m" ++ toString (s.count - 1) ++ "_ena") = none ∧
    (s.remove (k : Int) tmp).prefs
        ("m" ++ toString (s.count - 1) ++ "_ppr") = none ∧
    (s.remove (k : Int) tmp).prefs
        ("m" ++ toString (s.count - 1) ++ "_max") = none ∧
    (s.remove (k : Int) tmp).prefs "count" = some (Val.u8 (s.count - 1)) ∧
    (s.remove (k : Int) tmp).count = s.count - 1 := by
  obtain ⟨hcnt, hkeys⟩ := remove_tail s (k : Int) tmp (by omega) (by omega)
  have hm : (s.count + 255) % 256 = s.count - 1 := by omega
  have hl : ((s.count : Int) - 1) = ((s.count - 1 : Nat) : Int) := by omega
  rw [hm] at hcnt
  rw [hl] at hkeys
  have hk2 : ∀ f ∈ sfx, (s.remove (k : Int) tmp).prefs
      ("m" ++ toString (s.count - 1) ++ ("_" ++ f)) = none := by
    intro f hf
    rw [key_text_literal, ← key_text_any (s.count - 1) (by omega) f
      (le_trans (sfx_short f hf) (by decide))]
    exact hkeys f hf
  have hcount : (s.remove (k : Int) tmp).count = s.count - 1 := by
    rw [remove_valid s (k : Int) tmp (by omega) (by omega)]
    split <;> exact hm
  exact ⟨hk2 "name" (by decide), hk2 "br" (by decide), hk2 "fg" (by decide),
    hk2 "ld" (by decide), hk2 "lda" (by decide), hk2 "st" (by decide), hk2 "sta" (by decide),
    hk2 "en" (by decide), hk2 "ena" (by decide), hk2 "ppr" (by decide), hk2 "max" (by decide),
    hcnt, hcount⟩

/-- C16 on the store of three slots, removing index 1: the keys of slot 2 are gone. -/
theorem remove_clears_tail_witness :
    (threeSlots.count < 256 ∧ 1 < threeSlots.count) ∧
    ((threeSlots.remove ((1 : Nat) : Int) zeroed).prefs
         ("m" ++ toString (threeSlots.count - 1) ++ "_name") = none ∧
     (threeSlots.remove ((1 : Nat) : Int) zeroed).prefs
         ("m" ++ toString (threeSlots.count - 1) ++ "_br") = none ∧
     (threeSlots.remove ((1 : Nat) : Int) zeroed).prefs
         ("m" ++ toString (threeSlots.count - 1) ++ "_fg") = none ∧
     (threeSlots.remove ((1 : Nat) : Int) zeroed).prefs
         ("m" ++ toString (threeSlots.count - 1) ++ "_ld") = none ∧
     (threeSlots.remove ((1 : Nat) : Int) zeroed).prefs
         ("m" ++ toString (threeSlots.count - 1) ++ "_lda") = none ∧
     (threeSlots.remove ((1 : Nat) : Int) zeroed).prefs
         ("m" ++ toString (threeSlots.count - 1) ++ "_st") = none ∧
     (threeSlots.remove ((1 : Nat) : Int) zeroed).prefs
         ("m" ++ toString (threeSlots.count - 1) ++ "_sta") = none ∧
     (threeSlots.remove ((1 : Nat) : Int) zeroed).prefs
         ("m" ++ toString (threeSlots.count - 1) ++ "_en") = none ∧
     (threeSlots.remove ((1 : Nat) : Int) zeroed).prefs
         ("m" ++ toString (threeSlots.count - 1) ++ "_ena") = none ∧
     (threeSlots.remove ((1 : Nat) : Int) zeroed).prefs
         ("m" ++ toString (threeSlots.count - 1) ++ "_ppr") = none ∧
     (threeSlots.remove ((1 : Nat) : Int) zeroed).prefs
         ("m" ++ toString (threeSlots.count - 1) ++ "_max") = none ∧
     (threeSlots.remove ((1 : Nat) : Int) zeroed).prefs "count"
       = some (Val.u8 (threeSlots.count - 1)) ∧
     (threeSlots.remove ((1 : Nat) : Int) zeroed).count = threeSlots.count - 1) :=
  ⟨by decide, remove_clears_tail threeSlots 1 zeroed (by decide) (by decide)⟩

/-! ### `save`: acceptance and growth -/

theorem writeFields_count (p : Prefs) (idx : Int) (m : MotorProfile) :
    writeFields p idx m "count" = p "count" :=
  writeFields_other p idx m "count" (fun f _ h => key_ne_count_any idx f h.symm)

theorem writeFields_active (p : Prefs) (idx : Int) (m : MotorProfile) :
    writeFields p idx m "active" = p "active" :=
  writeFields_other p idx m "active" (fun f _ h => key_ne_active_any idx f h.symm)

/-- C12. `save (index, profile)` returns rejected exactly when `index < 0` or `index ≥ 8`.
When accepted, the new count is `max (old count, index + 1)`; if `index ≥ old count` the
new count is `index + 1` and is written under `"count"`; if `index < old count` the count
and the key `"count"` are as before. -/
theorem save_accepts_and_grows (s : ProfileStore) (idx : Int) (p : MotorProfile) :
    ((s.save idx p).1 = false ↔ idx < 0 ∨ idx ≥ 8) ∧
    (0 ≤ idx → idx < 8 → (s.save idx p).2.getCount = max s.getCount (idx + 1)) ∧
    (0 ≤ idx → idx < 8 → idx ≥ s.getCount →
      (s.save idx p).2.getCount = idx + 1 ∧
      (s.save idx p).2.prefs "count" = some (Val.u8 (s.save idx p).2.count)) ∧
    (0 ≤ idx → idx < 8 → idx < s.getCount →
      (s.save idx p).2.count = s.count ∧
      (s.save idx p).2.prefs "count" = s.prefs "count") := by
  simp only [getCount]
  refine ⟨?_, ?_, ?_, ?_⟩
  · constructor
    · intro h
      by_contra hn
      by_cases hc : idx < s.count
      · rw [save_inplace s idx p (by omega) (by omega) hc] at h
        exact Bool.noConfusion h
      · rw [save_grow s idx p (by omega) (by omega) (by omega)] at h
        exact Bool.noConfusion h
    · intro h
      rw [save_out s idx p h]
  · intro h0 h8
    by_cases hc : idx < s.count
    · rw [save_inplace s idx p h0 h8 hc]
      dsimp only
      omega
    · rw [save_grow s idx p h0 h8 (by omega)]
      dsimp only
      omega
  · intro h0 h8 hc
    rw [save_grow s idx p h0 h8 hc]
    dsimp only
    refine ⟨by omega, ?_⟩
    rw [Prefs.putUChar, Prefs.put_same]
    have : (idx + 1).toNat % 256 = (idx + 1).toNat := by omega
    rw [this]
  · intro h0 h8 hc
    rw [save_inplace s idx p h0 h8 hc]
    exact ⟨rfl, writeFields_count s.prefs idx p⟩

/-- C12 on the store of three slots: slot 5 grows the count to 6 and writes it, slot 1 is
updated in place, slots 8 and -1 are rejected. -/
theorem save_accepts_and_grows_witness :
    ((threeSlots.save 5 pump).2.getCount = 5 + 1 ∧
     (threeSlots.save 5 pump).2.prefs "count" = some (Val.u8 (threeSlots.save 5 pump).2.count)) ∧
    ((threeSlots.save 1 pump).2.count = threeSlots.count ∧
     (threeSlots.save 1 pump).2.prefs "count" = threeSlots.prefs "count") ∧
    (threeSlots.save 8 pump).1 = false ∧ (threeSlots.save (-1) pump).1 = false :=
  ⟨(save_accepts_and_grows threeSlots 5 pump).2.2.1 (by decide) (by decide) (by decide),
   (save_accepts_and_grows threeSlots 1 pump).2.2.2 (by decide) (by decide) (by decide),
   (save_accepts_and_grows threeSlots 8 pump).1.mpr (by decide),
   (save_accepts_and_grows threeSlots (-1) pump).1.mpr (by decide)⟩

/-! ### `begin` -/

/-- C13. `begin ()` on any backing store: the in-memory count is the stored `"count"` byte
when that is at most 8 (0 when the key is absent) and 0 when it is above 8; `activeIndex`
is the stored `"active"` byte (0 when absent); and the backing store is left as it was,
no key written or deleted. -/
theorem begin_reads (nvs : Prefs) :
    (nvs "count" = none → (ProfileStore.begin nvs).count = 0) ∧
    (∀ n : Nat, nvs "count" = some (Val.u8 n) → n < 256 →
      (n ≤ 8 → (ProfileStore.begin nvs).count = n) ∧
      (8 < n → (ProfileStore.begin nvs).count = 0)) ∧
    (nvs "active" = none → (ProfileStore.begin nvs).activeIndex = 0) ∧
    (∀ a : Nat, nvs "active" = some (Val.u8 a) → a < 256 →
      (ProfileStore.begin nvs).activeIndex = a) ∧
    (∀ q : String, (ProfileStore.begin nvs).prefs q = nvs q) := by
  refine ⟨?_, ?_, ?_, ?_, fun _ => rfl⟩
  · intro h
    simp only [ProfileStore.begin, Prefs.getUChar, h]
    rfl
  · intro n h hn
    simp only [ProfileStore.begin, Prefs.getUChar, h, Nat.mod_eq_of_lt hn, MAX_PROFILES]
    constructor
    · intro h8
      rw [if_neg (by omega)]
    · intro h8
      rw [if_pos (by omega)]
  · intro h
    simp only [ProfileStore.begin, Prefs.getUChar, h]
  · intro a h ha
    simp only [ProfileStore.begin, Prefs.getUChar, h, Nat.mod_eq_of_lt ha]

/-- C13 on a namespace with the corrupt count 200: the count read is 0, the active index is
the stored 3, and the keys, the corrupt count included, are as before. -/
theorem begin_reads_witness :
    (ProfileStore.begin corruptCount).count = 0 ∧
    (ProfileStore.begin corruptCount).activeIndex = 3 ∧
    (ProfileStore.begin corruptCount).prefs "count" = some (Val.u8 200) ∧
    (ProfileStore.begin corruptCount).prefs "m0_name" = some (Val.str "Old") ∧
    (ProfileStore.begin Prefs.empty).count = 0 :=
  ⟨((begin_reads corruptCount).2.1 200 (by decide) (by decide)).2 (by decide),
   (begin_reads corruptCount).2.2.2.1 3 (by decide) (by decide),
   ((begin_reads corruptCount).2.2.2.2 "count").trans (by decide),
   ((begin_reads corruptCount).2.2.2.2 "m0_name").trans (by decide),
   (begin_reads Prefs.empty).1 (by decide)⟩

/-! ### Out-of-range calls, the active profile, the count bound -/

/-- C18. With the index out of range, `load` reports absent and leaves the caller's
profile as it was, `save` reports rejected, and `save`, `remove` and `setActive` each
return the store they were given: same `count`, same `activeIndex`, same value under
every key.  (`load` has no effect on the store in any case.) -/
theorem out_of_range_noop (s : ProfileStore) (i j k l : Int) (p m tmp : MotorProfile)
    (hi : i < 0 ∨ i ≥ s.count) (hj : j < 0 ∨ j ≥ 8) (hk : k < 0 ∨ k ≥ s.count)
    (hl : l < 0 ∨ l ≥ s.count) :
    s.load i m = (false, m) ∧
    s.save j p = (false, s) ∧
    s.remove k tmp = s ∧
    s.setActive l = s :=
  ⟨load_out s i m hi, save_out s j p hj, remove_out s k tmp hk, setActive_out s l hl⟩

/-- C18 on the store of three slots, with indices 3, 8, -1 and 7. -/
theorem out_of_range_noop_witness :
    (((3 : Int) < 0 ∨ (3 : Int) ≥ threeSlots.count) ∧ ((8 : Int) < 0 ∨ (8 : Int) ≥ 8) ∧
      ((-1 : Int) < 0 ∨ (-1 : Int) ≥ threeSlots.count) ∧
      ((7 : Int) < 0 ∨ (7 : Int) ≥ threeSlots.count)) ∧
    (threeSlots.load 3 pump = (false, pump) ∧
     threeSlots.save 8 pump = (false, threeSlots) ∧
     threeSlots.remove (-1) zeroed = threeSlots ∧
     threeSlots.setActive 7 = threeSlots) :=
  ⟨by decide,
   out_of_range_noop threeSlots 3 8 (-1) 7 pump pump zeroed (by decide) (by decide) (by decide)
     (by decide)⟩

theorem load_put_active (s : ProfileStore) (n : Nat) (idx : Int) (m : MotorProfile) :
    ({ prefs := s.prefs.putUChar "active" n, count := s.count, activeIndex := n } :
        ProfileStore).load idx m = s.load idx m := by
  have hk : ∀ f : String, (s.prefs.putUChar "active" n) (key idx f) = s.prefs (key idx f) :=
    fun f => Prefs.put_other _ _ _ _ (key_ne_active_any idx f)
  simp only [load, Prefs.getString, Prefs.getBool, Prefs.getUChar, Prefs.getUInt, hk]

/-- C17. On every store `loadActive ()` returns absent exactly when `count = 0` or
`activeIndex ≥ count` (the sentinel 255 included), then leaving the caller's profile alone;
otherwise it returns what `load (activeIndex)` returns, which is a profile.  After
`setActive (i)` with `0 ≤ i < count` (`count` a `uint8_t`): `getActiveIndex () = i`,
`"active"` holds `i`, and `loadActive ()` returns what `load (i)` returns, after as before
the call. -/
theorem loadActive_spec (s : ProfileStore) (m : MotorProfile) :
    ((s.loadActive m).1 = false ↔ s.count = 0 ∨ s.activeIndex ≥ s.count) ∧
    (s.count = 0 ∨ s.activeIndex ≥ s.count → s.loadActive m = (false, m)) ∧
    (¬ (s.count = 0 ∨ s.activeIndex ≥ s.count) →
      s.loadActive m = s.load (s.activeIndex : Int) m ∧ (s.loadActive m).1 = true) ∧
    (∀ i : Nat, s.count < 256 → i < s.count →
      (s.setActive (i : Int)).getActiveIndex = (i : Int) ∧
      (s.setActive (i : Int)).prefs "active" = some (Val.u8 i) ∧
      (s.setActive (i : Int)).loadActive m = (s.setActive (i : Int)).load (i : Int) m ∧
      (s.setActive (i : Int)).load (i : Int) m = s.load (i : Int) m ∧
      ((s.setActive (i : Int)).loadActive m).1 = true) := by
  refine ⟨?_, ?_, ?_, ?_⟩
  · constructor
    · intro h
      by_contra hn
      simp only [loadActive, if_neg hn] at h
      rw [load_eq s _ m (by omega) (by omega)] at h
      exact Bool.noConfusion h
    · intro h
      simp only [loadActive, if_pos h]
  · intro h
    simp only [loadActive, if_pos h]
  · intro h
    simp only [loadActive, if_neg h, true_and]
    rw [load_eq s _ m (by omega) (by omega)]
  · intro i hc hi
    have hin : (i : Int) ≥ 0 ∧ (i : Int) < s.count := by omega
    have hmod : ((i : Int) % 256).toNat = i := by omega
    have hset : s.setActive (i : Int)
        = { prefs := s.prefs.putUChar "active" i, count := s.count, activeIndex := i } := by
      simp only [setActive, if_pos hin, hmod]
    have hla : (s.setActive (i : Int)).loadActive m
        = (s.setActive (i : Int)).load (i : Int) m := by
      have hn : ¬ (s.count = 0 ∨ i ≥ s.count) := by omega
      rw [hset]
      simp only [loadActive, if_neg hn]
    have hld : (s.setActive (i : Int)).load (i : Int) m = s.load (i : Int) m := by
      rw [hset]
      exact load_put_active s i (i : Int) m
    refine ⟨?_, ?_, hla, hld, ?_⟩
    · rw [hset]
      rfl
    · rw [hset]
      dsimp only
      rw [Prefs.putUChar, Prefs.put_same, Nat.mod_eq_of_lt (by omega)]
    · rw [hla, hld, load_eq s _ m (by omega) (by omega)]

/-- C17 on the store of three slots: making slot 2 the active one; and on an empty opened
store, where `loadActive ()` is absent. -/
theorem loadActive_spec_witness :
    ((threeSlots.setActive ((2 : Nat) : Int)).getActiveIndex = ((2 : Nat) : Int) ∧
      (threeSlots.setActive ((2 : Nat) : Int)).prefs "active" = some (Val.u8 2) ∧
      (threeSlots.setActive ((2 : Nat) : Int)).loadActive zeroed
        = (threeSlots.setActive ((2 : Nat) : Int)).load ((2 : Nat) : Int) zeroed ∧
      (threeSlots.setActive ((2 : Nat) : Int)).load ((2 : Nat) : Int) zeroed
        = threeSlots.load ((2 : Nat) : Int) zeroed ∧
      ((threeSlots.setActive ((2 : Nat) : Int)).loadActive zeroed).1 = true) ∧
    (ProfileStore.begin Prefs.empty).loadActive pump = (false, pump) :=
  ⟨(loadActive_spec threeSlots zeroed).2.2.2 2 (by decide) (by decide),
   (loadActive_spec (ProfileStore.begin Prefs.empty) pump).2.1 (by decide)⟩

theorem Call.apply_count (s : ProfileStore) (c : Call) (h8 : s.count ≤ 8) :
    (c.apply s).count ≤ 8 := by
  cases c with
  | load idx m => exact h8
  | loadActive m => exact h8
  | save idx m =>
    simp only [Call.apply]
    by_cases hr : idx < 0 ∨ idx ≥ 8
    · rw [save_out s idx m hr]; exact h8
    · obtain ⟨k, rfl⟩ := Int.eq_ofNat_of_zero_le (by omega : 0 ≤ idx)
      rw [(save_spec s k m (by omega)).2.1]
      omega
  | append m =>
    simp only [Call.apply]
    by_cases hf : 8 ≤ s.count
    · rw [append_full s m hf]; exact h8
    · rw [(append_spec s m (by omega)).2.1]
      omega
  | remove idx tmp =>
    simp only [Call.apply]
    by_cases hr : idx < 0 ∨ idx ≥ s.count
    · rw [remove_out s idx tmp hr]; exact h8
    · obtain ⟨k, rfl⟩ := Int.eq_ofNat_of_zero_le (by omega : 0 ≤ idx)
      rw [remove_count s k tmp h8 (by omega)]
      omega
  | setActive idx =>
    simp only [Call.apply]
    by_cases hr : idx < 0 ∨ idx ≥ s.count
    · rw [setActive_out s idx hr]; exact h8
    · obtain ⟨k, rfl⟩ := Int.eq_ofNat_of_zero_le (by omega : 0 ≤ idx)
      rw [(setActive_spec s k (by omega) h8).1]
      exact h8

theorem runCalls_count (calls : List Call) : ∀ s : ProfileStore, s.count ≤ 8 →
    (runCalls s calls).count ≤ 8 := by
  induction calls with
  | nil => intro s h; exact h
  | cons c rest ih =>
    intro s h
    exact ih (c.apply s) (Call.apply_count s c h)

/-- C20. After `begin ()` on any backing store and any sequence of `load`, `save`,
`append`, `remove`, `setActive` and `loadActive` calls with any arguments, the count is
between 0 and 8; in particular an accepted `remove` finds a count of at least 1 and leaves
one less, without wrapping. -/
theorem count_bounded (nvs : Prefs) (calls : List Call) :
    (runCalls (ProfileStore.begin nvs) calls).count ≤ 8 ∧
    0 ≤ (runCalls (ProfileStore.begin nvs) calls).getCount ∧
    (runCalls (ProfileStore.begin nvs) calls).getCount ≤ 8 ∧
    (∀ (idx : Int) (tmp : MotorProfile), 0 ≤ idx →
      idx < (runCalls (ProfileStore.begin nvs) calls).getCount →
      ((runCalls (ProfileStore.begin nvs) calls).remove idx tmp).getCount
        = (runCalls (ProfileStore.begin nvs) calls).getCount - 1) := by
  have h := runCalls_count calls (ProfileStore.begin nvs) (begin_count_le nvs)
  refine ⟨h, ?_, ?_, ?_⟩
  · simp only [getCount]; omega
  · simp only [getCount]; omega
  · intro idx tmp h0 h1
    simp only [getCount] at h1 ⊢
    obtain ⟨k, rfl⟩ := Int.eq_ofNat_of_zero_le h0
    rw [remove_count _ k tmp h (by omega)]
    omega

/-! ### Consuming the flags, press-only edges -/

/-- C15. Each consume query returns the current flag and leaves it false, every other
field staying as it was; a second call with no poll in between returns false and changes
nothing more.  So two calls in a row return `(true, false)` when the edge was pending and
`(false, false)` otherwise.  The same holds for `selLong` and the long-press flag. -/
theorem consume_semantics (b : Buttons) (ch : Channel) :
    (b.consume ch).1 = (b.chan ch).edge ∧
    ((b.consume ch).2.chan ch).edge = false ∧
    (b.consume Channel.up).2 = { b with upEdge := false } ∧
    (b.consume Channel.down).2 = { b with downEdge := false } ∧
    (b.consume Channel.sel).2 = { b with selEdge := false } ∧
    ((b.consume ch).2.consume ch).1 = false ∧
    ((b.consume ch).2.consume ch).2 = (b.consume ch).2 ∧
    ((b.consume ch).1, ((b.consume ch).2.consume ch).1) = ((b.chan ch).edge, false) ∧
    b.selLong.1 = b.longSel ∧
    b.selLong.2 = { b with longSel := false } ∧
    b.selLong.2.selLong.1 = false ∧
    b.selLong.2.selLong.2 = b.selLong.2 ∧
    (b.selLong.1, b.selLong.2.selLong.1) = (b.longSel, false) := by
  cases ch <;> exact ⟨rfl, rfl, rfl, rfl, rfl, rfl, rfl, rfl, rfl, rfl, rfl, rfl, rfl⟩

theorem processButton_edge (c : Chan) (r : Int) (now : Nat)
    (h : (processButton r { c with edge := false } now).edge = true) :
    c.stable ≠ LOW ∧ (processButton r { c with edge := false } now).stable = LOW := by
  by_cases hr : r = c.last
  · by_cases hd : subUL now c.debounceTime ≤ 50
    · rw [processButton_wait c r now hr hd] at h
      exact Bool.noConfusion h
    · by_cases hs : r = c.stable
      · rw [(processButton_same c r now hs).2.1] at h
        exact Bool.noConfusion h
      · rw [processButton_confirm c r now hr hs (by omega)] at h ⊢
        have hlow : r = LOW := of_decide_eq_true h
        exact ⟨fun hc => hs (by rw [hlow, hc]), hlow⟩
  · rw [processButton_change c r now hr] at h
    exact Bool.noConfusion h

theorem processButton_not_low (c : Chan) (r : Int) (now : Nat)
    (h : (processButton r { c with edge := false } now).stable ≠ LOW) :
    (processButton r { c with edge := false } now).edge = false := by
  cases he : (processButton r { c with edge := false } now).edge with
  | false => rfl
  | true => exact absurd (processButton_edge c r now he).2 h

/-- C19. For every channel and every poll: if the debounced level changes to released
(`HIGH`) on that poll, the press-edge flag is false after it; the flag is true after a poll
only if on that poll the debounced level changed to pressed from a level that was not
pressed (from `HIGH`, the levels being `HIGH` and `LOW`); a channel that was already
debounced pressed gets no edge. -/
theorem edges_press_only (ch : Channel) (b : Buttons) (x : Sample) :
    (((b.poll x).chan ch).stable ≠ (b.chan ch).stable → ((b.poll x).chan ch).stable = HIGH →
      ((b.poll x).chan ch).edge = false) ∧
    (((b.poll x).chan ch).edge = true →
      ((b.poll x).chan ch).stable ≠ (b.chan ch).stable ∧
      (b.chan ch).stable ≠ LOW ∧ ((b.poll x).chan ch).stable = LOW ∧
      ((b.chan ch).stable = HIGH ∨ (b.chan ch).stable = LOW → (b.chan ch).stable = HIGH)) ∧
    ((b.chan ch).stable = LOW → ((b.poll x).chan ch).edge = false) := by
  rw [chan_poll]
  refine ⟨?_, ?_, ?_⟩
  · intro _ hh
    exact processButton_not_low _ _ _ (by rw [hh]; decide)
  · intro he
    obtain ⟨h1, h2⟩ := processButton_edge _ _ _ he
    refine ⟨by rw [h2]; exact fun h => h1 h.symm, h1, h2, ?_⟩
    intro hb
    rcases hb with hb | hb
    · exact hb
    · exact absurd hb h1
  · intro hl
    cases he : (processButton (x.reading ch) { b.chan ch with edge := false }
        (x.now % 4294967296)).edge with
    | false => rfl
    | true => exact absurd hl (processButton_edge _ _ _ he).1

/-! ### Release resets the long-press timing -/

/-- A poll that leaves SELECT debounced not pressed clears the long-press variables. -/
theorem poll_released (b : Buttons) (x : Sample) (h : (b.poll x).stableSel ≠ LOW) :
    (b.poll x).selPressStart = 0 ∧ (b.poll x).longSelTriggered = false ∧
    (b.poll x).longSel = false := by
  simp only [Buttons.poll] at h ⊢
  split_ifs at h ⊢ <;> simp_all

theorem pollSelLong_length (xs : List Sample) : ∀ b : Buttons,
    (pollSelLong b xs).length = xs.length := by
  induction xs with
  | nil => intro b; rfl
  | cons x rest ih => intro b; rw [pollSelLong_cons, List.length_cons, ih, List.length_cons]

/-- Splitting a trace of levels along a split of the polls. -/
theorem pollSelLong_levels_split (xs ys : List Sample) (b : Buttons) (l1 l2 : List Int)
    (hl : l1.length = xs.length)
    (h : (pollSelLong b (xs ++ ys)).map Prod.fst = l1 ++ l2) :
    (pollSelLong b xs).map Prod.fst = l1 ∧
    (pollSelLong (pollSelLongEnd b xs) ys).map Prod.fst = l2 := by
  rw [pollSelLong_append, List.map_append] at h
  exact List.append_inj h (by rw [List.length_map, pollSelLong_length, hl])

theorem levels_all (l : List (Int × Bool)) (n : Nat) (v : Int)
    (h : l.map Prod.fst = List.replicate n v) : ∀ e ∈ l, e.1 = v := by
  intro e he
  have : e.1 ∈ l.map Prod.fst := List.mem_map_of_mem Prod.fst he
  rw [h] at this
  exact (List.mem_replicate.mp this).2
/-- Through a release every `selLong` query returns false, and after a release of at least
one poll the long-press variables are reset. -/
theorem gap_quiet : ∀ (xs : List Sample) (b : Buttons),
    (∀ e ∈ pollSelLong b xs, e.1 = HIGH) →
    (∀ e ∈ pollSelLong b xs, e.2 = false) ∧
    (xs ≠ [] → (pollSelLongEnd b xs).selPressStart = 0 ∧
      (pollSelLongEnd b xs).longSelTriggered = false ∧ (pollSelLongEnd b xs).longSel = false) := by
  intro xs
  induction xs with
  | nil =>
    intro b _
    exact ⟨fun e he => absurd he (List.not_mem_nil e), fun h => absurd rfl h⟩
  | cons x rest ih =>
    intro b hlev
    rw [pollSelLong_cons] at hlev ⊢
    have hhigh : (b.poll x).stableSel = HIGH := hlev _ (List.mem_cons_self _ _)
    obtain ⟨r1, r2, r3⟩ := poll_released b x (by rw [hhigh]; decide)
    obtain ⟨i1, i2⟩ := ih (b.poll x).selLong.2 (fun e he => hlev e (List.mem_cons_of_mem _ he))
    refine ⟨?_, ?_⟩
    · intro e he
      rcases List.mem_cons.mp he with h | h
      · rw [h]; exact r3
      · exact i1 e h
    · intro _
      by_cases hr : rest = []
      · subst hr
        exact ⟨r1, r2, rfl⟩
      · exact i2 hr

/-- Through a hold whose polls all come within 600 ms of the time `T` of its first
confirmed-pressed poll, in non-decreasing order, nothing fires: every `selLong` query
returns false and the latch stays open. -/
theorem hold_quiet (T : Nat) : ∀ (xs : List Sample) (b : Buttons),
    b.longSelTriggered = false → b.longSel = false →
    (b.selPressStart = 0 ∨ (T ≤ b.selPressStart ∧ ∀ x ∈ xs, b.selPressStart ≤ x.now)) →
    (∀ x ∈ xs, T ≤ x.now ∧ x.now ≤ T + LONG_PRESS_MS ∧ x.now < 4294967296) →
    (xs.map Sample.now).Pairwise (· ≤ ·) →
    (∀ e ∈ pollSelLong b xs, e.1 = LOW) →
    (∀ e ∈ pollSelLong b xs, e.2 = false) ∧
    (pollSelLongEnd b xs).longSelTriggered = false ∧ (pollSelLongEnd b xs).longSel = false := by
  intro xs
  induction xs with
  | nil =>
    intro b h2 h3 _ _ _ _
    exact ⟨fun e he => absurd he (List.not_mem_nil e), h2, h3⟩
  | cons x rest ih =>
    intro b h2 h3 hs hT hp hlev
    rw [pollSelLong_cons] at hlev ⊢
    have hlow : (b.poll x).stableSel = LOW := hlev _ (List.mem_cons_self _ _)
    obtain ⟨hx0, hx1, hxM⟩ := hT x (List.mem_cons_self _ _)
    have hxmod : x.now % 4294967296 = x.now := Nat.mod_eq_of_lt hxM
    rw [List.map_cons, List.pairwise_cons] at hp
    obtain ⟨f1, f2, f3⟩ := poll_long_fields b x hlow
    rw [h2] at f2
    rw [h3, h2] at f3
    have hstep : (b.poll x).longSelTriggered = false ∧ (b.poll x).longSel = false ∧
        (T ≤ (b.poll x).selPressStart ∧ ∀ y ∈ rest, (b.poll x).selPressStart ≤ y.now) := by
      by_cases h0 : b.selPressStart = 0
      · rw [h0, if_pos rfl, hxmod] at f1
        rw [h0] at f2 f3
        simp only [ne_eq, not_true_eq_false, false_and, decide_False, Bool.or_false] at f2 f3
        refine ⟨f2, f3, by rw [f1]; exact hx0, ?_⟩
        intro y hy
        rw [f1]
        exact hp.1 y.now (List.mem_map_of_mem Sample.now hy)
      · rcases hs with hs | ⟨hs1, hs2⟩
        · exact absurd hs h0
        · have hle : b.selPressStart ≤ x.now := hs2 x (List.mem_cons_self _ _)
          have hsub : ¬ (subUL (x.now % 4294967296) b.selPressStart > LONG_PRESS_MS) := by
            simp only [subUL, LONG_PRESS_MS] at hx1 ⊢
            omega
          rw [if_neg h0] at f1
          simp only [hsub, and_false, false_and, decide_False, Bool.or_false] at f2 f3
          refine ⟨f2, f3, by rw [f1]; exact hs1, ?_⟩
          intro y hy
          rw [f1]
          exact hs2 y (List.mem_cons_of_mem _ hy)
    obtain ⟨g2, g3, g1⟩ := hstep
    obtain ⟨i1, i2, i3⟩ := ih (b.poll x).selLong.2 g2 rfl (Or.inr g1)
      (fun y hy => hT y (List.mem_cons_of_mem _ hy)) hp.2
      (fun e he => hlev e (List.mem_cons_of_mem _ he))
    refine ⟨?_, i2, i3⟩
    intro e he
    rcases List.mem_cons.mp he with h | h
    · rw [h]; exact g3
    · exact i1 e h

/-- A short hold entered with the long-press variables reset fires nothing. -/
theorem shortHold_quiet (xs : List Sample) (b : Buttons)
    (h1 : b.selPressStart = 0) (h2 : b.longSelTriggered = false) (h3 : b.longSel = false)
    (hsh : ShortHold xs) (hlev : ∀ e ∈ pollSelLong b xs, e.1 = LOW) :
    (∀ e ∈ pollSelLong b xs, e.2 = false) ∧
    (pollSelLongEnd b xs).longSelTriggered = false ∧ (pollSelLongEnd b xs).longSel = false := by
  cases xs with
  | nil => exact ⟨fun e he => absurd he (List.not_mem_nil e), h2, h3⟩
  | cons x rest =>
    obtain ⟨hp, hw, hM⟩ := hsh
    have hp2 := hp
    rw [List.map_cons, List.pairwise_cons] at hp2
    refine hold_quiet x.now (x :: rest) b h2 h3 (Or.inl h1) ?_ hp hlev
    intro y hy
    refine ⟨?_, hw x (List.mem_cons_self _ _) y hy, hM y hy⟩
    rcases List.mem_cons.mp hy with h | h
    · rw [h]
    · exact hp2.1 y.now (List.mem_map_of_mem Sample.now h)
/-- Rounds of a release and a short hold fire nothing, whatever the state they start in. -/
theorem rounds_quiet : ∀ (segs : List (List Sample × List Sample)) (b : Buttons),
    (∀ sg ∈ segs, sg.1 ≠ [] ∧ ShortHold sg.2) →
    (pollSelLong b (gapsAndHolds segs)).map Prod.fst = gapsAndHoldsLevels segs →
    ∀ e ∈ pollSelLong b (gapsAndHolds segs), e.2 = false := by
  intro segs
  induction segs with
  | nil => intro b _ _ e he; exact absurd he (List.not_mem_nil e)
  | cons sg rest ih =>
    intro b hsegs hlev
    obtain ⟨hne, hsh⟩ := hsegs sg (List.mem_cons_self _ _)
    simp only [gapsAndHolds, gapsAndHoldsLevels] at hlev ⊢
    obtain ⟨hA, hB⟩ := pollSelLong_levels_split sg.1 _ b _ _ (List.length_replicate _ _) hlev
    obtain ⟨hC, hD⟩ := pollSelLong_levels_split sg.2 _ (pollSelLongEnd b sg.1) _ _
      (List.length_replicate _ _) hB
    obtain ⟨a1, a2⟩ := gap_quiet sg.1 b (levels_all _ _ _ hA)
    obtain ⟨r1, r2, r3⟩ := a2 hne
    obtain ⟨c1, -, -⟩ := shortHold_quiet sg.2 (pollSelLongEnd b sg.1) r1 r2 r3 hsh
      (levels_all _ _ _ hC)
    have i1 := ih (pollSelLongEnd (pollSelLongEnd b sg.1) sg.2)
      (fun s hs => hsegs s (List.mem_cons_of_mem _ hs)) hD
    intro e he
    rw [pollSelLong_append, pollSelLong_append] at he
    rcases List.mem_append.mp he with h | h
    · exact a1 e h
    · rcases List.mem_append.mp h with h | h
      · exact c1 e h
      · exact i1 e h

/-- C14. A poll that leaves SELECT debounced released (not `LOW`) clears `selPressStart`,
`longSelTriggered` and `longSel`.  Consequently: start with the long-press variables reset
and poll through a hold `first` and then through rounds of a release (at least one poll
with SELECT debounced released) and a hold, with `selLong` called after each poll; if in
each hold the poll times do not decrease and stay within 600 ms of its first
confirmed-pressed poll, `selLong` never returns true, however many holds there are. -/
theorem release_resets_long_press (b : Buttons) (first : List Sample)
    (segs : List (List Sample × List Sample))
    (h1 : b.selPressStart = 0) (h2 : b.longSelTriggered = false) (h3 : b.longSel = false)
    (hfirst : ShortHold first) (hsegs : ∀ sg ∈ segs, sg.1 ≠ [] ∧ ShortHold sg.2)
    (hlev : (pollSelLong b (first ++ gapsAndHolds segs)).map Prod.fst
      = List.replicate first.length LOW ++ gapsAndHoldsLevels segs) :
    (∀ (c : Buttons) (x : Sample), (c.poll x).stableSel ≠ LOW →
      (c.poll x).selPressStart = 0 ∧ (c.poll x).longSelTriggered = false ∧
      (c.poll x).longSel = false) ∧
    (∀ e ∈ pollSelLong b (first ++ gapsAndHolds segs), e.2 = false) := by
  refine ⟨poll_released, ?_⟩
  obtain ⟨hA, hB⟩ := pollSelLong_levels_split first _ b _ _ (List.length_replicate _ _) hlev
  obtain ⟨c1, -, -⟩ := shortHold_quiet first b h1 h2 h3 hfirst (levels_all _ _ _ hA)
  have r := rounds_quiet segs (pollSelLongEnd b first) hsegs hB
  intro e he
  rw [pollSelLong_append] at he
  rcases List.mem_append.mp he with h | h
  · exact c1 e h
  · exact r e h

/-- C14 on a fresh `Buttons` object and two holds of 349 and 559 ms with a debounced
release in between: 908 ms of holding in total, and `selLong` returns false every time. -/
theorem release_resets_long_press_witness :
    (Buttons.init.selPressStart = 0 ∧ Buttons.init.longSelTriggered = false ∧
      Buttons.init.longSel = false ∧ ShortHold [] ∧
      (∀ sg ∈ twoShortHolds, sg.1 ≠ [] ∧ ShortHold sg.2) ∧
      (pollSelLong Buttons.init ([] ++ gapsAndHolds twoShortHolds)).map Prod.fst
        = List.replicate ([] : List Sample).length LOW ++ gapsAndHoldsLevels twoShortHolds) ∧
    (∀ e ∈ pollSelLong Buttons.init ([] ++ gapsAndHolds twoShortHolds), e.2 = false) :=
  ⟨by decide,
   (release_resets_long_press Buttons.init [] twoShortHolds (by decide) (by decide) (by decide)
      (by decide) (by decide) (by decide)).2⟩

/-! ### Persistence of the cached bytes -/

theorem getUChar_of_eq (p q : Prefs) (k : String) (d : Nat) (h : p k = q k) :
    p.getUChar k d = q.getUChar k d := by
  simp only [Prefs.getUChar, h]

theorem getUChar_putUChar_same (p : Prefs) (k : String) (n d : Nat) :
    (p.putUChar k n).getUChar k d = n % 256 := by
  simp only [Prefs.getUChar, Prefs.putUChar, Prefs.put_same, Nat.mod_mod]

theorem getUChar_putUChar_other (p : Prefs) (k q : String) (n d : Nat) (h : q ≠ k) :
    (p.putUChar k n).getUChar q d = p.getUChar q d :=
  getUChar_of_eq _ _ q d (Prefs.put_other p k q _ h)

theorem persisted_iff (s : ProfileStore) :
    Persisted s ↔
      (if s.prefs.getUChar "count" 0 > MAX_PROFILES then 0 else s.prefs.getUChar "count" 0)
        = s.count ∧
      s.prefs.getUChar "active" 0 = s.activeIndex := by
  cases s with
  | mk p c a =>
    simp only [Persisted, ProfileStore.begin, ProfileStore.mk.injEq, true_and]

theorem begin_persisted (nvs : Prefs) : Persisted (ProfileStore.begin nvs) := by
  rw [persisted_iff]
  exact ⟨rfl, rfl⟩

theorem save_persisted (s : ProfileStore) (idx : Int) (m : MotorProfile)
    (h : Persisted s) : Persisted (s.save idx m).2 := by
  by_cases hr : idx < 0 ∨ idx ≥ 8
  · rw [save_out s idx m hr]; exact h
  · rw [persisted_iff] at h ⊢
    obtain ⟨hc, ha⟩ := h
    by_cases hlt : idx < s.count
    · rw [save_inplace s idx m (by omega) (by omega) hlt]
      dsimp only
      rw [getUChar_of_eq _ s.prefs "count" 0 (writeFields_count s.prefs idx m),
        getUChar_of_eq _ s.prefs "active" 0 (writeFields_active s.prefs idx m)]
      exact ⟨hc, ha⟩
    · rw [save_grow s idx m (by omega) (by omega) (by omega)]
      dsimp only
      rw [getUChar_putUChar_same, getUChar_putUChar_other _ _ _ _ _ (by decide),
        getUChar_of_eq _ s.prefs "active" 0 (writeFields_active s.prefs idx m)]
      refine ⟨?_, ha⟩
      have h1 : (idx + 1).toNat % 256 = (idx + 1).toNat := by omega
      have h2 : ¬ ((idx + 1).toNat > MAX_PROFILES) := by simp only [MAX_PROFILES]; omega
      rw [h1, if_neg h2]

theorem setActive_persisted (s : ProfileStore) (idx : Int) (h8 : s.count ≤ 8)
    (h : Persisted s) : Persisted (s.setActive idx) := by
  by_cases hr : idx < 0 ∨ idx ≥ s.count
  · rw [setActive_out s idx hr]; exact h
  · rw [persisted_iff] at h ⊢
    have hin : idx ≥ 0 ∧ idx < s.count := by omega
    simp only [setActive, if_pos hin]
    rw [getUChar_putUChar_same, getUChar_putUChar_other _ _ _ _ _ (by decide)]
    refine ⟨h.1, ?_⟩
    omega

theorem remove_persisted (s : ProfileStore) (idx : Int) (tmp : MotorProfile)
    (h8 : s.count ≤ 8) (h : Persisted s) : Persisted (s.remove idx tmp) := by
  by_cases hr : idx < 0 ∨ idx ≥ s.count
  · rw [remove_out s idx tmp hr]; exact h
  · obtain ⟨k, rfl⟩ := Int.eq_ofNat_of_zero_le (by omega : 0 ≤ idx)
    rw [persisted_iff] at h ⊢
    have hm : (s.count + 255) % 256 = s.count - 1 := by omega
    have hclamp : ∀ c : Nat, c ≤ 8 → (if c % 256 > MAX_PROFILES then 0 else c % 256) = c := by
      intro c hc
      have h1 : c % 256 = c := by omega
      have h2 : ¬ (c > MAX_PROFILES) := by simp only [MAX_PROFILES]; omega
      rw [h1, if_neg h2]
    rw [remove_valid s (k : Int) tmp (by omega) (by omega), hm]
    split
    · dsimp only
      rw [getUChar_putUChar_same, getUChar_putUChar_other _ _ _ _ _ (by decide),
        getUChar_putUChar_same]
      refine ⟨hclamp _ (by omega), ?_⟩
      split <;> rfl
    · dsimp only
      rw [getUChar_putUChar_same, getUChar_putUChar_other _ _ _ _ _ (by decide)]
      refine ⟨hclamp _ (by omega), ?_⟩
      rw [getUChar_of_eq _ s.prefs "active" 0, h.2]
      rw [clearTail_other _ _ "active" (fun f _ hk => key_ne_active_any _ f hk.symm)]
      exact (removeLoop_spec s.count s k tmp h8 (by omega)).2.2.1 "active"
        (fun j _ _ f _ hk => key_ne_active_any _ f hk.symm)

theorem Op.apply_persisted (s : ProfileStore) (op : Op) (h8 : s.count ≤ 8)
    (h : Persisted s) : (op.apply s).count ≤ 8 ∧ Persisted (op.apply s) := by
  cases op with
  | save idx m =>
    refine ⟨?_, save_persisted s idx m h⟩
    simp only [Op.apply]
    by_cases hr : idx < 0 ∨ idx ≥ 8
    · rw [save_out s idx m hr]; exact h8
    · obtain ⟨k, rfl⟩ := Int.eq_ofNat_of_zero_le (by omega : 0 ≤ idx)
      rw [(save_spec s k m (by omega)).2.1]
      omega
  | append m =>
    simp only [Op.apply]
    by_cases hf : 8 ≤ s.count
    · rw [append_full s m hf]; exact ⟨h8, h⟩
    · rw [append_eq_save s m (by omega)]
      refine ⟨?_, save_persisted s _ m h⟩
      rw [(save_spec s s.count m (by omega)).2.1]
      omega
  | remove idx tmp =>
    refine ⟨?_, remove_persisted s idx tmp h8 h⟩
    simp only [Op.apply]
    by_cases hr : idx < 0 ∨ idx ≥ s.count
    · rw [remove_out s idx tmp hr]; exact h8
    · obtain ⟨k, rfl⟩ := Int.eq_ofNat_of_zero_le (by omega : 0 ≤ idx)
      rw [remove_count s k tmp h8 (by omega)]
      omega
  | setActive idx =>
    refine ⟨?_, setActive_persisted s idx h8 h⟩
    simp only [Op.apply]
    by_cases hr : idx < 0 ∨ idx ≥ s.count
    · rw [setActive_out s idx hr]; exact h8
    · obtain ⟨k, rfl⟩ := Int.eq_ofNat_of_zero_le (by omega : 0 ≤ idx)
      rw [(setActive_spec s k (by omega) h8).1]
      exact h8

theorem runOps_persisted (ops : List Op) : ∀ s : ProfileStore, s.count ≤ 8 → Persisted s →
    Persisted (runOps s ops) := by
  induction ops with
  | nil => intro s _ h; exact h
  | cons op rest ih =>
    intro s h8 h
    obtain ⟨a, b⟩ := Op.apply_persisted s op h8 h
    exact ih (op.apply s) a b

/-- C21. After `begin ()` on any backing store and any sequence of `save`, `append`,
`remove` and `setActive` calls, a fresh `begin ()` on the resulting backing store gives the
same `count` and the same `activeIndex` as the values in memory (it gives the same store
altogether), and `load (i)` returns from the fresh instance what it returns from the
original one, for every `i` and in particular with success for `0 ≤ i < count`. -/
theorem persistence_consistent (nvs : Prefs) (ops : List Op) :
    (ProfileStore.begin (runOps (ProfileStore.begin nvs) ops).prefs).count
      = (runOps (ProfileStore.begin nvs) ops).count ∧
    (ProfileStore.begin (runOps (ProfileStore.begin nvs) ops).prefs).activeIndex
      = (runOps (ProfileStore.begin nvs) ops).activeIndex ∧
    ProfileStore.begin (runOps (ProfileStore.begin nvs) ops).prefs
      = runOps (ProfileStore.begin nvs) ops ∧
    (∀ (i : Int) (m : MotorProfile),
      (ProfileStore.begin (runOps (ProfileStore.begin nvs) ops).prefs).load i m
        = (runOps (ProfileStore.begin nvs) ops).load i m) ∧
    (∀ (i : Int) (m : MotorProfile), 0 ≤ i → i < (runOps (ProfileStore.begin nvs) ops).count →
      ((ProfileStore.begin (runOps (ProfileStore.begin nvs) ops).prefs).load i m).1 = true) := by
  have h : ProfileStore.begin (runOps (ProfileStore.begin nvs) ops).prefs
      = runOps (ProfileStore.begin nvs) ops :=
    runOps_persisted ops (ProfileStore.begin nvs) (begin_count_le nvs) (begin_persisted nvs)
  refine ⟨by rw [h], by rw [h], h, fun i m => by rw [h], ?_⟩
  intro i m h0 h1
  rw [h, load_eq _ i m h0 h1]

/-! ### The long-press flag is latched -/

/-- A pending long-press flag survives every poll that leaves SELECT debounced pressed. -/
theorem longSel_kept : ∀ (xs : List Sample) (b : Buttons),
    b.longSel = true → (∀ st ∈ pollAll b xs, st.stableSel = LOW) →
    (∀ st ∈ pollAll b xs, st.longSel = true) ∧ (pollEnd b xs).longSel = true := by
  intro xs
  induction xs with
  | nil => intro b hl _; exact ⟨fun st hst => absurd hst (List.not_mem_nil st), hl⟩
  | cons x rest ih =>
    intro b hl hheld
    simp only [pollAll] at hheld ⊢
    have hlow : (b.poll x).stableSel = LOW := hheld _ (List.mem_cons_self _ _)
    have hl1 : (b.poll x).longSel = true := by
      rw [(poll_long_fields b x hlow).2.2, hl, Bool.true_or]
    obtain ⟨i1, i2⟩ := ih (b.poll x) hl1 (fun st hst => hheld st (List.mem_cons_of_mem _ hst))
    refine ⟨?_, i2⟩
    intro st hst
    rcases List.mem_cons.mp hst with h | h
    · rw [h]; exact hl1
    · exact i1 st h

/-- A poll keeps `longSel → longSelTriggered`. -/
theorem poll_keeps_latch (b : Buttons) (x : Sample)
    (h : b.longSel = true → b.longSelTriggered = true) :
    (b.poll x).longSel = true → (b.poll x).longSelTriggered = true := by
  by_cases hlow : (b.poll x).stableSel = LOW
  · obtain ⟨-, f2, f3⟩ := poll_long_fields b x hlow
    intro hl
    rw [f3] at hl
    rw [f2]
    rcases Bool.or_eq_true _ _ ▸ hl with h1 | h1
    · rw [h h1, Bool.true_or]
    · have h2 := of_decide_eq_true h1
      rw [Bool.or_eq_true]
      exact Or.inr (decide_eq_true ⟨h2.1, h2.2.1⟩)
  · intro hl
    rw [(poll_released b x hlow).2.2] at hl
    exact Bool.noConfusion hl

/-- After a poll the latch is set only with SELECT debounced pressed, from any state. -/
theorem poll_triggered_low (b : Buttons) (x : Sample)
    (h : (b.poll x).longSelTriggered = true) : (b.poll x).stableSel = LOW := by
  by_contra hlow
  rw [(poll_released b x hlow).2.1] at h
  exact Bool.noConfusion h

theorem BCall.apply_keeps_latch (b : Buttons) (c : BCall)
    (h : b.longSel = true → b.longSelTriggered = true) :
    (c.apply b).longSel = true → (c.apply b).longSelTriggered = true := by
  cases c with
  | begin rUp rDown rSel => exact h
  | poll x => exact poll_keeps_latch b x h
  | upPressed => exact h
  | downPressed => exact h
  | selPressed => exact h
  | selLong => intro hl; exact Bool.noConfusion hl

theorem runButtons_keeps_latch (cs : List BCall) : ∀ b : Buttons,
    (b.longSel = true → b.longSelTriggered = true) →
    (runButtons b cs).longSel = true → (runButtons b cs).longSelTriggered = true := by
  induction cs with
  | nil => intro b h; exact h
  | cons c rest ih => intro b h; exact ih (c.apply b) (BCall.apply_keeps_latch b c h)

theorem poll_edge_needs_change (ch : Channel) (b : Buttons) (x : Sample)
    (h : ((b.poll x).chan ch).stable = (b.chan ch).stable) :
    ((b.poll x).chan ch).edge = false := by
  rw [chan_poll] at h ⊢
  cases he : (processButton (x.reading ch) { b.chan ch with edge := false }
      (x.now % 4294967296)).edge with
  | false => rfl
  | true =>
    obtain ⟨h1, h2⟩ := processButton_edge _ _ _ he
    rw [h2] at h
    exact absurd h.symm h1

/-- C22. A pending long-press flag stays true over any number of polls that leave SELECT
debounced pressed; `selLong` then returns it and clears it; a poll that leaves SELECT
debounced released clears it.  A press-edge flag pending before a poll, in contrast, is
false after any poll that does not change the channel's debounced level.  And after every
poll of an object that has gone through any sequence of `begin`, `poll` and the four
queries since construction, `longSel` implies `longSelTriggered` and `longSelTriggered`
implies that SELECT is debounced pressed. -/
theorem long_press_latched (b : Buttons) (xs : List Sample) (cs : List BCall) (x : Sample)
    (ch : Channel) :
    (b.longSel = true → (∀ st ∈ pollAll b xs, st.stableSel = LOW) →
      (∀ st ∈ pollAll b xs, st.longSel = true) ∧ (pollEnd b xs).longSel = true ∧
      (pollEnd b xs).selLong.1 = true ∧ (pollEnd b xs).selLong.2.longSel = false) ∧
    ((b.poll x).stableSel ≠ LOW → (b.poll x).longSel = false) ∧
    (((b.poll x).chan ch).stable = (b.chan ch).stable → ((b.poll x).chan ch).edge = false) ∧
    (((runButtons Buttons.init cs).poll x).longSel = true →
      ((runButtons Buttons.init cs).poll x).longSelTriggered = true) ∧
    (((runButtons Buttons.init cs).poll x).longSelTriggered = true →
      ((runButtons Buttons.init cs).poll x).stableSel = LOW) := by
  refine ⟨?_, fun h => (poll_released b x h).2.2, poll_edge_needs_change ch b x, ?_,
    poll_triggered_low _ x⟩
  · intro hl hheld
    obtain ⟨k1, k2⟩ := longSel_kept xs b hl hheld
    exact ⟨k1, k2, k2, rfl⟩
  · exact poll_keeps_latch _ x
      (runButtons_keeps_latch cs Buttons.init (fun h => Bool.noConfusion h))

/-- C22 on an object with the long press pending and an UP edge pending: three polls with
SELECT held keep `longSel` true and drop the UP edge; `selLong` then returns true once. -/
theorem long_press_latched_witness :
    (longPending.longSel = true ∧
      (∀ st ∈ pollAll longPending [selLowAt 800, selLowAt 900, selLowAt 5000],
        st.stableSel = LOW)) ∧
    ((∀ st ∈ pollAll longPending [selLowAt 800, selLowAt 900, selLowAt 5000],
        st.longSel = true) ∧
      (pollEnd longPending [selLowAt 800, selLowAt 900, selLowAt 5000]).longSel = true ∧
      (pollEnd longPending [selLowAt 800, selLowAt 900, selLowAt 5000]).selLong.1 = true ∧
      (pollEnd longPending [selLowAt 800, selLowAt 900, selLowAt 5000]).selLong.2.longSel
        = false) ∧
    ((longPending.poll (selLowAt 800)).chan Channel.up).edge = false :=
  ⟨by decide,
   (long_press_latched longPending [selLowAt 800, selLowAt 900, selLowAt 5000] []
      (selLowAt 800) Channel.up).1 (by decide) (by decide),
   (long_press_latched longPending [selLowAt 800, selLowAt 900, selLowAt 5000] []
      (selLowAt 800) Channel.up).2.2.1 (by decide)⟩

/-- C21 on a namespace with a corrupt stored count: after a `save` into slot 2,
`setActive (1)`, `remove (0)` and an `append`, a fresh `begin ()` reads back the count 3
and the active index 1 held in memory. -/
theorem persistence_consistent_witness :
    (ProfileStore.begin (runOps (ProfileStore.begin corruptCount)
        [Op.save 2 pump, Op.setActive 1, Op.remove 0 zeroed, Op.append pump]).prefs).count
      = (runOps (ProfileStore.begin corruptCount)
          [Op.save 2 pump, Op.setActive 1, Op.remove 0 zeroed, Op.append pump]).count ∧
    (ProfileStore.begin (runOps (ProfileStore.begin corruptCount)
        [Op.save 2 pump, Op.setActive 1, Op.remove 0 zeroed, Op.append pump]).prefs).activeIndex
      = (runOps (ProfileStore.begin corruptCount)
          [Op.save 2 pump, Op.setActive 1, Op.remove 0 zeroed, Op.append pump]).activeIndex ∧
    (runOps (ProfileStore.begin corruptCount)
        [Op.save 2 pump, Op.setActive 1, Op.remove 0 zeroed, Op.append pump]).count = 3 ∧
    (runOps (ProfileStore.begin corruptCount)
        [Op.save 2 pump, Op.setActive 1, Op.remove 0 zeroed, Op.append pump]).activeIndex = 1 :=
  ⟨(persistence_consistent corruptCount
      [Op.save 2 pump, Op.setActive 1, Op.remove 0 zeroed, Op.append pump]).1,
   (persistence_consistent corruptCount
      [Op.save 2 pump, Op.setActive 1, Op.remove 0 zeroed, Op.append pump]).2.1,
   by decide, by decide⟩

end MiniController
